import Mathlib

/-!
Verification of the Go-lox tree-walking interpreter (scanner, parser,
environment chain, evaluator) against its natural-language specification.

The Go sources are shallowly embedded:
* machine doubles (`float64`) are modelled as exact rationals; the claims under
  study exercise type dispatch and zero tests, not IEEE rounding,
* Go maps `map[string]interface{}` are modelled as association lists,
* `log.Fatal` (process abort) is modelled as a `fatal` outcome that no
  construct absorbs,
* `panic(&BreakError{})` / `recover` is modelled as a `brk` outcome that only
  the while-statement handler absorbs,
* `*ReturnError` is an ordinary statement result value (as in the Go code) and
  is modelled as the `ret` alternative of a statement result,
* ANSI colour codes and quote characters inside diagnostic messages are
  dropped (the spec declares formatting a presentation concern, section 6).

General recursion (parser, evaluator) is made total with an explicit fuel
parameter; running out of fuel yields a distinguished `oot` outcome that is
never identified with any program behaviour.
-/

namespace GoLox

/-- Exact rational number in canonical form (reduced, positive denominator),
the model of the Go `float64`.  A bespoke structure rather than Mathlib `ℚ`
so that every arithmetic operation reduces inside the kernel, letting
concrete program runs be settled by `rfl`/`decide`.  Every constructor below
yields canonical values, on which structural equality is numeric equality. -/
structure Qv where
  num : Int
  den : Nat
deriving DecidableEq, Repr

namespace Qv

/-- Build the canonical rational for a fraction with positive denominator. -/
def mk2 (n : Int) (d : Nat) : Qv :=
  if d = 0 then { num := 0, den := 1 }
  else
    let g := Nat.gcd n.natAbs d
    { num := n / (g : Int), den := d / g }

/-- Build the canonical rational for any integer fraction. -/
def mkQ (n d : Int) : Qv :=
  if d < 0 then mk2 (-n) (-d).toNat else mk2 n d.toNat

def ofInt (n : Int) : Qv := { num := n, den := 1 }

instance (n : Nat) : OfNat Qv n := ⟨{ num := n, den := 1 }⟩

def add (a b : Qv) : Qv := mk2 (a.num * b.den + b.num * a.den) (a.den * b.den)

def sub (a b : Qv) : Qv := mk2 (a.num * b.den - b.num * a.den) (a.den * b.den)

def mul (a b : Qv) : Qv := mk2 (a.num * b.num) (a.den * b.den)

def div (a b : Qv) : Qv := mkQ (a.num * b.den) (a.den * b.num)

def neg (a : Qv) : Qv := { num := -a.num, den := a.den }

def blt (a b : Qv) : Bool := a.num * b.den < b.num * a.den

def ble (a b : Qv) : Bool := a.num * b.den ≤ b.num * a.den

/-- Magnitude rounded to six decimal places, half up: the integer
`round(|q| * 10^6)` as a natural number. -/
def round6 (a : Qv) : Nat :=
  let n := if a.num < 0 then -a.num else a.num
  ((2 * n * 1000000 + a.den) / (2 * a.den)).toNat

end Qv

/-- Runtime values of the interpreter: the dynamic `interface` values that
flow through `interpreter.go`.  `vclock` is the single native clock object
allocated by `NewInterpreter`; `vfun addr` is a `*LoxFunction` pointer,
modelled as the index of the function object in the interpreter state (so that
Go pointer equality is equality of indices). -/
inductive Value where
  | vnil
  | vbool (b : Bool)
  | vnum (q : Qv)
  | vstr (s : String)
  | vclock
  | vfun (addr : Nat)
deriving DecidableEq, Repr

/-- Token kinds, as used by the scanner keyword table and the parser.  The
enum declaration file itself is absent from the sources, but every member
below is forced by its uses in the scanner, the parser and the interpreter
(`BREAK` is required by the `BreakStmt` AST node and its interpreter visit). -/
inductive TokenType where
  | LEFT_PAREN
  | RIGHT_PAREN
  | LEFT_BRACE
  | RIGHT_BRACE
  | COMMA
  | DOT
  | MINUS
  | PLUS
  | SEMICOLON
  | SLASH
  | STAR
  | BANG
  | BANG_EQUAL
  | EQUAL
  | EQUAL_EQUAL
  | GREATER
  | GREATER_EQUAL
  | LESS
  | LESS_EQUAL
  | IDENTIFIER
  | STRING
  | NUMBER
  | AND
  | CLASS
  | ELSE
  | FALSE
  | FUN
  | FOR
  | IF
  | NIL
  | OR
  | PRINT
  | RETURN
  | SUPER
  | THIS
  | TRUE
  | VAR
  | WHILE
  | BREAK
  | EOF
deriving DecidableEq, Repr

/-- Token record from `token.go`: kind, lexeme, literal payload
(`nil`, a number or a string, carried as a `Value`), source line. -/
structure Token where
  tokenType : TokenType
  lexeme : String
  literal : Value
  line : Int
deriving DecidableEq, Repr

/-- Runtime error report: `ReportExit line msg` models the string built by
`ReportExit` and passed to `log.Fatal`; `nilDeref` models the Go nil-pointer
panic that `stringify` triggers when it dereferences a nil token. -/
inductive RtErr where
  | report (line : Int) (msg : String)
  | nilDeref
deriving DecidableEq, Repr

/-! ## Environment chain (`part_000`, the current `environment.go`)

A Go `Environment` is a `values` map plus an optional `enclosing` pointer; the
chain reachable from any environment is therefore a non-empty list of frames,
and the methods `get` / `assign` recurse along `enclosing`.  We model the
chain as `List Frame` (the empty list standing for the absent `enclosing`
pointer at the end of the chain), and mutation as returning the updated
chain. -/

/-- One scope frame: the `values` map of a Go `Environment`, as an
association list. -/
abbrev Frame := List (String × Value)

/-- Lookup in one frame, first match wins (a Go map has at most one entry per
key; `Environment.define` below keeps that invariant by overwriting). -/
def frameLookup (f : Frame) (name : String) : Option Value :=
  match f with
  | [] => none
  | (k, v) :: rest => if k = name then some v else frameLookup rest name

/-- Go map assignment `e.values[name] = value`: overwrite the binding if
present, otherwise add it. -/
def frameInsert (f : Frame) (name : String) (v : Value) : Frame :=
  match f with
  | [] => [(name, v)]
  | (k, w) :: rest =>
      if k = name then (k, v) :: rest else (k, w) :: frameInsert rest name v

namespace Environment

/-- Method `define` of `part_000`: bind `name` in the current (innermost)
scope, overwriting an existing same-scope binding.  On the empty chain (a nil
receiver, which the interpreter never produces) it creates the frame. -/
def define (e : List Frame) (name : String) (v : Value) : List Frame :=
  match e with
  | [] => [[(name, v)]]
  | f :: rest => frameInsert f name v :: rest

/-- Method `get` of `part_000`: look in the current scope, else recurse into
`enclosing`; when the chain is exhausted, `log.Fatal` an undefined-variable
report.  (In the Go code the error fires in the last frame when `enclosing`
is nil; recursing once more into the empty chain yields the same result.) -/
def get (e : List Frame) (name : Token) : Except RtErr Value :=
  match e with
  | [] => .error (.report name.line ("Undefined variable " ++ name.lexeme ++ "."))
  | f :: rest =>
      match frameLookup f name.lexeme with
      | some v => .ok v
      | none => get rest name

/-- Method `assign` of `part_000`: if the current scope holds the name,
overwrite it there; else recurse outward; when no scope holds it,
`log.Fatal` an undefined-variable report (no binding is created). -/
def assign (e : List Frame) (name : Token) (v : Value) :
    Except RtErr (List Frame) :=
  match e with
  | [] => .error (.report name.line ("Undefined variable " ++ name.lexeme ++ "."))
  | f :: rest =>
      match frameLookup f name.lexeme with
      | some _ => .ok (frameInsert f name.lexeme v :: rest)
      | none =>
          match assign rest name v with
          | .ok rest2 => .ok (f :: rest2)
          | .error err => .error err

end Environment

/-- Spec-side reading of a chain lookup: the value bound by the first frame
(walking outward) that binds the name, phrased through the list API. -/
def chainLookup (e : List Frame) (name : String) : Option Value :=
  e.findSome? (fun f => frameLookup f name)

/-- Spec-side reading of assignment: locate the first frame binding the name
and rewrite the binding in exactly that frame; `none` when no frame binds
it. -/
def chainAssign (e : List Frame) (name : String) (v : Value) :
    Option (List Frame) :=
  match e.findIdx? (fun f => (frameLookup f name).isSome) with
  | none => none
  | some i => some (e.set i (frameInsert (e.getD i []) name v))

theorem frameLookup_frameInsert (f : Frame) (n : String) (v : Value) (m : String) :
    frameLookup (frameInsert f n v) m =
      if m = n then some v else frameLookup f m := by
  induction f with
  | nil =>
      by_cases h : n = m
      · subst h; simp [frameInsert, frameLookup]
      · simp [frameInsert, frameLookup, h, Ne.symm h]
  | cons kv rest ih =>
      obtain ⟨k, w⟩ := kv
      by_cases hk : k = n
      · subst hk
        by_cases hm : k = m
        · subst hm; simp [frameInsert, frameLookup]
        · simp [frameInsert, frameLookup, hm, Ne.symm hm]
      · by_cases hm : k = m
        · subst hm
          simp [frameInsert, frameLookup, hk, Ne.symm hk]
        · simp [frameInsert, frameLookup, hk, hm, ih]

theorem get_eq_chainLookup (e : List Frame) (name : Token) :
    Environment.get e name =
      match chainLookup e name.lexeme with
      | some v => .ok v
      | none =>
          .error (.report name.line ("Undefined variable " ++ name.lexeme ++ ".")) := by
  induction e with
  | nil => rfl
  | cons f rest ih =>
      simp only [Environment.get, chainLookup, List.findSome?_cons]
      cases h : frameLookup f name.lexeme with
      | some v => simp
      | none => simpa [chainLookup] using ih

theorem assign_eq_chainAssign (e : List Frame) (name : Token) (v : Value) :
    Environment.assign e name v =
      match chainAssign e name.lexeme v with
      | some e2 => .ok e2
      | none =>
          .error (.report name.line ("Undefined variable " ++ name.lexeme ++ ".")) := by
  induction e with
  | nil => rfl
  | cons f rest ih =>
      simp only [Environment.assign, chainAssign, List.findIdx?_cons]
      cases h : frameLookup f name.lexeme with
      | some w =>
          simp [h, Option.isSome]
      | none =>
          rw [ih]
          simp only [h, Option.isSome_none, Bool.false_eq_true, if_false,
            List.findIdx?_succ, chainAssign]
          cases hidx : List.findIdx? (fun g => (frameLookup g name.lexeme).isSome) rest with
          | none => simp
          | some i => simp

theorem chainLookup_none_iff (e : List Frame) (n : String) :
    chainLookup e n = none ↔ ∀ f ∈ e, frameLookup f n = none := by
  simp [chainLookup, List.findSome?_eq_none_iff]

theorem assign_preserves_domains (e : List Frame) (name : Token) (v : Value) :
    ∀ e2, Environment.assign e name v = .ok e2 →
      List.Forall₂
        (fun f g => ∀ m, (frameLookup f m).isSome = (frameLookup g m).isSome) e e2 := by
  induction e with
  | nil => intro e2 h; cases h
  | cons f rest ih =>
      intro e2 h
      simp only [Environment.assign] at h
      cases hl : frameLookup f name.lexeme with
      | some w =>
          rw [hl] at h
          cases h
          refine List.Forall₂.cons ?_ (List.forall₂_same.mpr (fun x _ m => rfl))
          intro m
          rw [frameLookup_frameInsert]
          by_cases hm : m = name.lexeme
          · subst hm; simp [hl]
          · simp [hm]
      | none =>
          rw [hl] at h
          cases hrec : Environment.assign rest name v with
          | ok rest2 =>
              rw [hrec] at h
              cases h
              exact List.Forall₂.cons (fun m => rfl) (ih rest2 hrec)
          | error err => rw [hrec] at h; cases h

theorem chainAssign_none_iff (e : List Frame) (n : String) (v : Value) :
    chainAssign e n v = none ↔ chainLookup e n = none := by
  have h1 : chainAssign e n v = none ↔
      List.findIdx? (fun f => (frameLookup f n).isSome) e = none := by
    unfold chainAssign
    cases List.findIdx? (fun f => (frameLookup f n).isSome) e <;> simp
  rw [h1, List.findIdx?_eq_none_iff, chainLookup_none_iff]
  constructor
  · intro h f hf
    exact Option.not_isSome_iff_eq_none.mp (by simp [h f hf])
  · intro h f hf
    simp [h f hf]

/-- C4: reading a variable looks in the current scope then walks parent links
outward and yields the value of the first scope binding the name, failing with
an undefined-variable runtime error if and only if no scope in the chain binds
it; assigning performs the same outward walk and mutates the first scope found
holding the name, failing with the undefined-variable error (and creating no
binding: every frame keeps exactly its old domain) if and only if no scope
defines it. -/
theorem environment_outward_walk (e : List Frame) (name : Token) (v : Value) :
    (∀ w, Environment.get e name = .ok w ↔ chainLookup e name.lexeme = some w)
    ∧ (chainLookup e name.lexeme = none ↔
        ∀ f ∈ e, frameLookup f name.lexeme = none)
    ∧ (chainLookup e name.lexeme = none →
        Environment.get e name =
          .error (.report name.line ("Undefined variable " ++ name.lexeme ++ ".")))
    ∧ (∀ e2, Environment.assign e name v = .ok e2 ↔
        chainAssign e name.lexeme v = some e2)
    ∧ (chainLookup e name.lexeme = none →
        Environment.assign e name v =
          .error (.report name.line ("Undefined variable " ++ name.lexeme ++ ".")))
    ∧ (∀ e2, Environment.assign e name v = .ok e2 →
        List.Forall₂
          (fun f g => ∀ m, (frameLookup f m).isSome = (frameLookup g m).isSome)
          e e2) := by
  refine ⟨?_, chainLookup_none_iff e name.lexeme, ?_, ?_, ?_,
    assign_preserves_domains e name v⟩
  · intro w
    rw [get_eq_chainLookup]
    cases chainLookup e name.lexeme <;> simp
  · intro h
    rw [get_eq_chainLookup, h]
  · intro e2
    rw [assign_eq_chainAssign]
    cases chainAssign e name.lexeme v <;> simp
  · intro h
    rw [assign_eq_chainAssign, (chainAssign_none_iff e name.lexeme v).mpr h]

/-- Witness for C4 on a three-frame chain: the middle frame is the first one
binding x, so get returns its value, assignment rewrites it there while every
frame keeps its domain, and an unbound name produces the undefined-variable
error. -/
theorem environment_outward_walk_witness :
    (Environment.get
        [[("a", Value.vnum 1)], [("x", Value.vnum 2), ("y", Value.vnum 7)],
          [("x", Value.vnum 5)]]
        { tokenType := .IDENTIFIER, lexeme := "x", literal := .vnil, line := 3 } =
      .ok (Value.vnum 2))
    ∧ List.Forall₂
        (fun f g => ∀ m, (frameLookup f m).isSome = (frameLookup g m).isSome)
        [[("a", Value.vnum 1)], [("x", Value.vnum 2), ("y", Value.vnum 7)],
          [("x", Value.vnum 5)]]
        [[("a", Value.vnum 1)], [("x", Value.vnum 9), ("y", Value.vnum 7)],
          [("x", Value.vnum 5)]]
    ∧ (Environment.assign
        [[("a", Value.vnum 1)], [("x", Value.vnum 2), ("y", Value.vnum 7)],
          [("x", Value.vnum 5)]]
        { tokenType := .IDENTIFIER, lexeme := "zz", literal := .vnil, line := 4 }
        (Value.vnum 1) =
      .error (.report 4 "Undefined variable zz.")) := by
  have h1 := environment_outward_walk
    [[("a", Value.vnum 1)], [("x", Value.vnum 2), ("y", Value.vnum 7)],
      [("x", Value.vnum 5)]]
    { tokenType := .IDENTIFIER, lexeme := "x", literal := .vnil, line := 3 }
    (Value.vnum 9)
  have h2 := environment_outward_walk
    [[("a", Value.vnum 1)], [("x", Value.vnum 2), ("y", Value.vnum 7)],
      [("x", Value.vnum 5)]]
    { tokenType := .IDENTIFIER, lexeme := "zz", literal := .vnil, line := 4 }
    (Value.vnum 1)
  refine ⟨(h1.1 (Value.vnum 2)).mpr (by decide), ?_, ?_⟩
  · exact h1.2.2.2.2.2 _ ((h1.2.2.2.1 _).mpr (by decide))
  · exact h2.2.2.2.2.1 (by decide)

/-! ## Scanner (`part_011`, the current `scanner.go`)

Source text is a list of characters (the Go code indexes bytes; the inputs of
interest are ASCII, where the two coincide).  Loops that advance the cursor
are given explicit fuel; the driver passes `source.length + 1`, which is
always sufficient because every iteration moves the cursor forward. -/

/-- Scan-time failure: `fatal` models `log.Fatal(ReportExit(...))`,
`indexOutOfRange` the Go slice-bounds panic that `advanceNext` can trigger,
`oot` fuel exhaustion (unreachable at the fuel used by `ScanTokens`). -/
inductive ScanErr where
  | fatal (line : Int) (msg : String)
  | indexOutOfRange
  | oot
deriving DecidableEq, Repr

/-- Scanner state from `part_011`. -/
structure Scanner where
  source : List Char
  tokens : List Token
  start : Nat
  current : Nat
  line : Int
deriving Repr

/-- Keyword table built in `NewScanner`.  Note that it has no entry for
break. -/
def keywordsTable (s : String) : Option TokenType :=
  if s = "and" then some .AND
  else if s = "class" then some .CLASS
  else if s = "else" then some .ELSE
  else if s = "false" then some .FALSE
  else if s = "for" then some .FOR
  else if s = "fun" then some .FUN
  else if s = "if" then some .IF
  else if s = "nil" then some .NIL
  else if s = "or" then some .OR
  else if s = "print" then some .PRINT
  else if s = "return" then some .RETURN
  else if s = "super" then some .SUPER
  else if s = "this" then some .THIS
  else if s = "true" then some .TRUE
  else if s = "var" then some .VAR
  else if s = "while" then some .WHILE
  else none

namespace Scanner

/-- Character constants written by code point to keep the development
ASCII-clean: left brace, right brace, double quote, NUL (the zero byte that
`peek` and `peekNext` return at end of input). -/
def lbrace : Char := Char.ofNat 123

def rbrace : Char := Char.ofNat 125

def dquote : Char := Char.ofNat 34

def nulChar : Char := Char.ofNat 0

def isAtEnd (s : Scanner) : Bool := s.current ≥ s.source.length

def peek (s : Scanner) : Char :=
  if s.isAtEnd then nulChar else s.source.getD s.current nulChar

def peekNext (s : Scanner) : Char :=
  if s.current + 1 ≥ s.source.length then nulChar
  else s.source.getD (s.current + 1) nulChar

/-- Method `advance`: return the current character and move the cursor (the
at-end branch returns a junk byte and does not move; `ScanTokens` never calls
it there). -/
def advance (s : Scanner) : Char × Scanner :=
  if s.current ≥ s.source.length then (nulChar, s)
  else (s.source.getD s.current nulChar, { s with current := s.current + 1 })

/-- Method `advanceNext`: skip two characters; reading `source[current+1]`
panics in Go when `current + 1` is out of range, modelled as the
`indexOutOfRange` error. -/
def advanceNext (s : Scanner) : Except ScanErr Scanner :=
  if s.current ≥ s.source.length then .ok s
  else if s.current + 1 ≥ s.source.length then .error .indexOutOfRange
  else .ok { s with current := s.current + 2 }

/-- Method `match`: conditionally consume the expected character
(`matchChar`, since match is reserved in Lean). -/
def matchChar (s : Scanner) (expected : Char) : Bool × Scanner :=
  if s.isAtEnd then (false, s)
  else if s.source.getD s.current nulChar ≠ expected then (false, s)
  else (true, { s with current := s.current + 1 })

def isDigit (c : Char) : Bool := c ≥ '0' ∧ c ≤ '9'

def isAlpha (c : Char) : Bool :=
  (c ≥ 'a' ∧ c ≤ 'z') ∨ (c ≥ 'A' ∧ c ≤ 'Z') ∨ c = '_'

def isAlphaNumeric (c : Char) : Bool := isAlpha c ∨ isDigit c

/-- Current lexeme `source[start:current]`. -/
def lexemeText (s : Scanner) : String :=
  String.mk ((s.source.drop s.start).take (s.current - s.start))

def addTokenLiteral (s : Scanner) (tokenType : TokenType) (literal : Value) :
    Scanner :=
  { s with tokens :=
      s.tokens ++ [{ tokenType := tokenType, lexeme := s.lexemeText,
                     literal := literal, line := s.line }] }

def addToken (s : Scanner) (tokenType : TokenType) : Scanner :=
  s.addTokenLiteral tokenType .vnil

/-- Loop body of the `//` comment case: discard to end of line. -/
def lineCommentLoop : Nat → Scanner → Except ScanErr Scanner
  | 0, _ => .error .oot
  | fuel + 1, s =>
      if s.peek ≠ '\n' ∧ ¬s.isAtEnd then
        lineCommentLoop fuel (s.advance).2
      else .ok s

/-- Loop of the block-comment case, ported verbatim: it keeps discarding only
while the current character differs from star AND the next character differs
from slash, so it stops as soon as either appears anywhere in the body. -/
def blockCommentLoop : Nat → Scanner → Except ScanErr Scanner
  | 0, _ => .error .oot
  | fuel + 1, s =>
      if (s.peek ≠ '*' ∧ s.peekNext ≠ '/') ∧ ¬s.isAtEnd then
        blockCommentLoop fuel (s.advance).2
      else .ok s

/-- Loop of method `string`: consume until the closing quote, bumping the
line counter at embedded newlines. -/
def stringLoop : Nat → Scanner → Except ScanErr Scanner
  | 0, _ => .error .oot
  | fuel + 1, s =>
      if s.peek ≠ dquote ∧ ¬s.isAtEnd then
        stringLoop fuel
          ((if s.peek = '\n' then { s with line := s.line + 1 } else s).advance).2
      else .ok s

/-- Method `string` after the loop: unterminated input is a fatal error, else
consume the closing quote and emit the literal without the delimiters. -/
def stringTail (s : Scanner) : Except ScanErr Scanner :=
  if s.isAtEnd then .error (.fatal s.line "Unterminated string.")
  else
    let s := (s.advance).2
    let value := String.mk
      ((s.source.drop (s.start + 1)).take (s.current - 1 - (s.start + 1)))
    .ok (s.addTokenLiteral .STRING (.vstr value))

def digitLoop : Nat → Scanner → Except ScanErr Scanner
  | 0, _ => .error .oot
  | fuel + 1, s =>
      if isDigit s.peek then digitLoop fuel (s.advance).2 else .ok s

/-- Value of a digit character. -/
def digitVal (c : Char) : Nat := c.toNat - 48

/-- Model of `strconv.ParseFloat` on the digit strings the scanner produces
(digits, optionally a dot and more digits), exact over rationals. -/
def parseNumberChars (cs : List Char) : Qv :=
  let ipart := cs.takeWhile isDigit
  let rest := cs.drop ipart.length
  let ival : Nat := ipart.foldl (fun a c => 10 * a + digitVal c) 0
  match rest with
  | c :: fs =>
      if c = '.' then
        let fval : Nat := fs.foldl (fun a d => 10 * a + digitVal d) 0
        Qv.add (Qv.ofInt ival) (Qv.mk2 fval (10 ^ fs.length))
      else Qv.ofInt ival
  | [] => Qv.ofInt ival

/-- Method `number`: integer digits, then an optional fractional part only
when a digit follows the dot. -/
def numberTail (fuel : Nat) (s : Scanner) : Except ScanErr Scanner := do
  let s ← digitLoop fuel s
  let s ←
    if s.peek = '.' ∧ isDigit s.peekNext then do
      digitLoop fuel (s.advance).2
    else pure s
  let q := parseNumberChars ((s.source.drop s.start).take (s.current - s.start))
  .ok (s.addTokenLiteral .NUMBER (.vnum q))

/-- Method `identifier`: extend over alphanumerics, then classify through the
keyword table. -/
def identifierTail (fuel : Nat) (s : Scanner) : Except ScanErr Scanner := do
  let rec go : Nat → Scanner → Except ScanErr Scanner
    | 0, _ => .error .oot
    | f + 1, s =>
        if isAlphaNumeric s.peek then go f (s.advance).2 else .ok s
  let s ← go fuel s
  let text := s.lexemeText
  let tokenType := (keywordsTable text).getD .IDENTIFIER
  .ok (s.addToken tokenType)

/-- Method `scanToken`, the big dispatch switch of `part_011`. -/
def scanToken (fuel : Nat) (s : Scanner) : Except ScanErr Scanner :=
  let (c, s) := s.advance
  if c = '(' then .ok (s.addToken .LEFT_PAREN)
  else if c = ')' then .ok (s.addToken .RIGHT_PAREN)
  else if c = lbrace then .ok (s.addToken .LEFT_BRACE)
  else if c = rbrace then .ok (s.addToken .RIGHT_BRACE)
  else if c = ',' then .ok (s.addToken .COMMA)
  else if c = '.' then .ok (s.addToken .DOT)
  else if c = '-' then .ok (s.addToken .MINUS)
  else if c = '+' then .ok (s.addToken .PLUS)
  else if c = ';' then .ok (s.addToken .SEMICOLON)
  else if c = '*' then .ok (s.addToken .STAR)
  else if c = '!' then
    let (m, s) := s.matchChar '='
    .ok (s.addToken (if m then .BANG_EQUAL else .BANG))
  else if c = '=' then
    let (m, s) := s.matchChar '='
    .ok (s.addToken (if m then .EQUAL_EQUAL else .EQUAL))
  else if c = '<' then
    let (m, s) := s.matchChar '='
    .ok (s.addToken (if m then .LESS_EQUAL else .LESS))
  else if c = '>' then
    let (m, s) := s.matchChar '='
    .ok (s.addToken (if m then .GREATER_EQUAL else .GREATER))
  else if c = '/' then
    let (m, s) := s.matchChar '/'
    if m then lineCommentLoop fuel s
    else
      let (m2, s) := s.matchChar '*'
      if m2 then do
        let s ← blockCommentLoop fuel s
        s.advanceNext
      else .ok (s.addToken .SLASH)
  else if c = ' ' then .ok s
  else if c = '\r' then .ok s
  else if c = '\t' then .ok s
  else if c = '\n' then .ok { s with line := s.line + 1 }
  else if c = dquote then do
    let s ← stringLoop fuel s
    stringTail s
  else if isDigit c then numberTail fuel s
  else if isAlpha c then identifierTail fuel s
  else .error (.fatal s.line "Unexpected character.")

/-- Loop of `ScanTokens`: scan until the end of input, then append the EOF
token. -/
def scanTokensLoop : Nat → Scanner → Except ScanErr Scanner
  | 0, _ => .error .oot
  | fuel + 1, s =>
      if ¬s.isAtEnd then do
        let s2 ← scanToken (s.source.length + 1) { s with start := s.current }
        scanTokensLoop fuel s2
      else .ok s

end Scanner

/-- Entry point `ScanTokens` over a source string, with fuel large enough for
any input (each round consumes at least one character). -/
def ScanTokens (source : String) : Except ScanErr (List Token) := do
  let s0 : Scanner :=
    { source := source.toList, tokens := [], start := 0, current := 0, line := 1 }
  let s ← Scanner.scanTokensLoop (source.length + 1) s0
  .ok (s.tokens ++
    [{ tokenType := .EOF, lexeme := "", literal := .vnil, line := s.line }])

/-- C9 (code bug): the claim says a block comment is discarded in full,
skipping characters until the literal two-character sequence star-slash,
whatever appears inside the body.  The scanner loop instead stops while the
current character is a star OR the next one is a slash, so on the source
slash-star-space-star-space-star-slash it stops in the middle of the comment
and the tail of the body is tokenised: scanning yields STAR and SLASH tokens
where the claim demands none.  On comment bodies free of stray star/slash
characters the comment is fully discarded (second conjunct). -/
theorem blockComment_not_fully_discarded :
    ScanTokens "/* * */" =
      .ok [{ tokenType := .STAR, lexeme := "*", literal := .vnil, line := 1 },
           { tokenType := .SLASH, lexeme := "/", literal := .vnil, line := 1 },
           { tokenType := .EOF, lexeme := "", literal := .vnil, line := 1 }]
    ∧ ScanTokens "/* abc */" =
      .ok [{ tokenType := .EOF, lexeme := "", literal := .vnil, line := 1 }] := by
  constructor <;> rfl

/-! ## AST (`part_009` second half and `part_002`, the current `expr.go` and
`stmt.go`) -/

/-- Expression nodes.  `LiteralExpr` carries the dynamic literal value;
`variableE` stands for `VariableExpr` (variable is reserved in Lean). -/
inductive Expr where
  | literal (value : Value)
  | grouping (expression : Expr)
  | unary (operator : Token) (right : Expr)
  | binary (left : Expr) (operator : Token) (right : Expr)
  | logical (left : Expr) (operator : Token) (right : Expr)
  | variableE (name : Token)
  | assign (name : Token) (value : Expr)
  | call (callee : Expr) (paren : Token) (arguments : List Expr)
deriving Repr

/-- Statement nodes of `part_002` (`ifS`, `whileS`, `ret`, `breakS` rename
the Go node names around Lean keywords). -/
inductive Stmt where
  | expression (expression : Expr)
  | print (expression : Expr)
  | varDecl (name : Token) (initializer : Option Expr)
  | block (statements : List Stmt)
  | ifS (condition : Expr) (thenBranch : Stmt) (elseBranch : Option Stmt)
  | whileS (condition : Expr) (body : Stmt)
  | function (name : Token) (params : List Token) (body : List Stmt)
  | ret (value : Option Expr)
  | breakS
deriving Repr

/-! ## Parser (`part_006`, extended per spec section 4.2)

The newest parser file — the revision adding `fun`, `return` and `break`
statement parsing, matching the statement nodes of `part_002` and their
interpreter visitors — is absent from the sources; only earlier revisions
(`parser.go` and `part_006`) are present.  The expression grammar, the
`for`/`if`/`print`/`while`/block statements and all the cursor helpers below
are ported from `part_006`; the three missing `statement` branches are
modelled from the spec and marked as such.  Every parse error in the sources
is `log.Fatal` (modelled `fatal`), which aborts the whole run. -/

/-- Parse-time failure: `fatal` models `log.Fatal(ReportExit(...))`; `oot` is
fuel exhaustion. -/
inductive ParseErr where
  | fatal (line : Int) (msg : String)
  | oot
deriving DecidableEq, Repr

/-- Parser state from `part_006`: the token list and a cursor. -/
structure Parser where
  tokens : List Token
  current : Nat
deriving Repr

namespace Parser

/-- Default token returned on an out-of-range read (the Go code would panic;
scanner output always keeps the cursor in range thanks to the EOF
sentinel). -/
def outTok : Token :=
  { tokenType := .EOF, lexeme := "", literal := .vnil, line := -1 }

def peek (p : Parser) : Token := p.tokens.getD p.current outTok

def previous (p : Parser) : Token := p.tokens.getD (p.current - 1) outTok

def isAtEnd (p : Parser) : Bool := (p.peek).tokenType = .EOF

def check (p : Parser) (ttype : TokenType) : Bool :=
  if p.isAtEnd then false else (p.peek).tokenType = ttype

def advance (p : Parser) : Token × Parser :=
  let p2 := if ¬p.isAtEnd then { p with current := p.current + 1 } else p
  (p2.previous, p2)

/-- Variadic `match`: first listed kind that checks is consumed. -/
def matchT (p : Parser) : List TokenType → Bool × Parser
  | [] => (false, p)
  | t :: rest =>
      if p.check t then (true, (p.advance).2) else p.matchT rest

def consume (p : Parser) (ttype : TokenType) (message : String) :
    Except ParseErr (Token × Parser) :=
  if p.check ttype then .ok p.advance
  else .error (.fatal (p.peek).line message)

/-- Method `synchronize` of `part_006`, ported with Go switch semantics: the
empty cases for `CLASS`/`FUN`/`VAR`/`IF`/`WHILE`/`PRINT` fall out of the
switch without effect (Go has no implicit fallthrough), so only a just-passed
semicolon, a RETURN lookahead or the end of input stops the discard loop. -/
def syncLoop : Nat → Parser → Parser
  | 0, p => p
  | fuel + 1, p =>
      if ¬p.isAtEnd then
        if (p.previous).tokenType = .SEMICOLON then p
        else if (p.peek).tokenType = .RETURN then p
        else syncLoop fuel (p.advance).2
      else p

def synchronize (p : Parser) : Parser :=
  syncLoop (p.tokens.length + 1) (p.advance).2

end Parser

mutual

/-- Rule `expression` (`part_006`). -/
def expressionP : Nat → Parser → Except ParseErr (Expr × Parser)
  | 0, _ => .error .oot
  | fuel + 1, p => assignmentP fuel p

/-- Rule `assignment` (`part_006`): only a variable expression is a valid
assignment target; anything else on the left of an equals sign is fatal. -/
def assignmentP : Nat → Parser → Except ParseErr (Expr × Parser)
  | 0, _ => .error .oot
  | fuel + 1, p => do
      let (expr, p) ← orP fuel p
      let (m, p) := p.matchT [.EQUAL]
      if m then
        let (value, p2) ← assignmentP fuel p
        match expr with
        | .variableE name => .ok (.assign name value, p2)
        | _ => .error (.fatal (p2.peek).line "Invalid assignment target.")
      else .ok (expr, p)

/-- Rule `or` (`part_006`). -/
def orP : Nat → Parser → Except ParseErr (Expr × Parser)
  | 0, _ => .error .oot
  | fuel + 1, p => do
      let (expr, p) ← andP fuel p
      orLoopP fuel expr p

def orLoopP : Nat → Expr → Parser → Except ParseErr (Expr × Parser)
  | 0, _, _ => .error .oot
  | fuel + 1, expr, p => do
      let (m, p) := p.matchT [.OR]
      if m then
        let operator := p.previous
        let (right, p) ← andP fuel p
        orLoopP fuel (.logical expr operator right) p
      else .ok (expr, p)

/-- Rule `and` (`part_006`). -/
def andP : Nat → Parser → Except ParseErr (Expr × Parser)
  | 0, _ => .error .oot
  | fuel + 1, p => do
      let (expr, p) ← equalityP fuel p
      andLoopP fuel expr p

def andLoopP : Nat → Expr → Parser → Except ParseErr (Expr × Parser)
  | 0, _, _ => .error .oot
  | fuel + 1, expr, p => do
      let (m, p) := p.matchT [.AND]
      if m then
        let operator := p.previous
        let (right, p) ← equalityP fuel p
        andLoopP fuel (.logical expr operator right) p
      else .ok (expr, p)

/-- Rule `equality` (`part_006`). -/
def equalityP : Nat → Parser → Except ParseErr (Expr × Parser)
  | 0, _ => .error .oot
  | fuel + 1, p => do
      let (expr, p) ← comparisonP fuel p
      equalityLoopP fuel expr p

def equalityLoopP : Nat → Expr → Parser → Except ParseErr (Expr × Parser)
  | 0, _, _ => .error .oot
  | fuel + 1, expr, p => do
      let (m, p) := p.matchT [.BANG_EQUAL, .EQUAL_EQUAL]
      if m then
        let operator := p.previous
        let (right, p) ← comparisonP fuel p
        equalityLoopP fuel (.binary expr operator right) p
      else .ok (expr, p)

/-- Rule `comparison` (`part_006`). -/
def comparisonP : Nat → Parser → Except ParseErr (Expr × Parser)
  | 0, _ => .error .oot
  | fuel + 1, p => do
      let (expr, p) ← termP fuel p
      comparisonLoopP fuel expr p

def comparisonLoopP : Nat → Expr → Parser → Except ParseErr (Expr × Parser)
  | 0, _, _ => .error .oot
  | fuel + 1, expr, p => do
      let (m, p) := p.matchT [.GREATER, .GREATER_EQUAL, .LESS, .LESS_EQUAL]
      if m then
        let operator := p.previous
        let (right, p) ← termP fuel p
        comparisonLoopP fuel (.binary expr operator right) p
      else .ok (expr, p)

/-- Rule `term` (`part_006`). -/
def termP : Nat → Parser → Except ParseErr (Expr × Parser)
  | 0, _ => .error .oot
  | fuel + 1, p => do
      let (expr, p) ← factorP fuel p
      termLoopP fuel expr p

def termLoopP : Nat → Expr → Parser → Except ParseErr (Expr × Parser)
  | 0, _, _ => .error .oot
  | fuel + 1, expr, p => do
      let (m, p) := p.matchT [.MINUS, .PLUS]
      if m then
        let operator := p.previous
        let (right, p) ← factorP fuel p
        termLoopP fuel (.binary expr operator right) p
      else .ok (expr, p)

/-- Rule `factor` (`part_006`). -/
def factorP : Nat → Parser → Except ParseErr (Expr × Parser)
  | 0, _ => .error .oot
  | fuel + 1, p => do
      let (expr, p) ← unaryP fuel p
      factorLoopP fuel expr p

def factorLoopP : Nat → Expr → Parser → Except ParseErr (Expr × Parser)
  | 0, _, _ => .error .oot
  | fuel + 1, expr, p => do
      let (m, p) := p.matchT [.SLASH, .STAR]
      if m then
        let operator := p.previous
        let (right, p) ← unaryP fuel p
        factorLoopP fuel (.binary expr operator right) p
      else .ok (expr, p)

/-- Rule `unary` (`part_006`). -/
def unaryP : Nat → Parser → Except ParseErr (Expr × Parser)
  | 0, _ => .error .oot
  | fuel + 1, p => do
      let (m, p) := p.matchT [.BANG, .MINUS]
      if m then
        let operator := p.previous
        let (right, p) ← unaryP fuel p
        .ok (.unary operator right, p)
      else primaryP fuel p

/-- Rule `primary` (`part_006`): literals, identifiers and grouping; any
other token is the fatal Expected expression error. -/
def primaryP : Nat → Parser → Except ParseErr (Expr × Parser)
  | 0, _ => .error .oot
  | fuel + 1, p => do
      let (m, p) := p.matchT [.FALSE]
      if m then .ok (.literal (.vbool false), p) else do
      let (m, p) := p.matchT [.TRUE]
      if m then .ok (.literal (.vbool true), p) else do
      let (m, p) := p.matchT [.NIL]
      if m then .ok (.literal .vnil, p) else do
      let (m, p) := p.matchT [.NUMBER, .STRING]
      if m then .ok (.literal (p.previous).literal, p) else do
      let (m, p) := p.matchT [.IDENTIFIER]
      if m then .ok (.variableE p.previous, p) else do
      let (m, p) := p.matchT [.LEFT_PAREN]
      if m then do
        let (expr, p) ← expressionP fuel p
        let (_, p) ← p.consume .RIGHT_PAREN "Expect ) after expression."
        .ok (.grouping expr, p)
      else .error (.fatal (p.peek).line "Expected expression.")

end

mutual

/-- Rule `declaration` (`part_006`). -/
def declarationP : Nat → Parser → Except ParseErr (Stmt × Parser)
  | 0, _ => .error .oot
  | fuel + 1, p => do
      let (m, p) := p.matchT [.VAR]
      if m then varDeclarationP fuel p else statementP fuel p

/-- Rule `statement`.  The `for`/`if`/`print`/`while`/block branches and the
expression-statement fallthrough are ported from `part_006`.  Modelled from
the spec: the current parser revision is absent from the sources, and spec
section 4.2 states that `statement` additionally dispatches on `fun` to a
function declaration, on `return` to a return statement and on `break` to a
break statement, in that order after the block branch.  Each Go
`p.match(KIND)` guard on a single kind is exactly check-then-advance, written
here as nested conditionals. -/
def statementP : Nat → Parser → Except ParseErr (Stmt × Parser)
  | 0, _ => .error .oot
  | fuel + 1, p =>
      if p.check .FOR then forStatementP fuel (p.advance).2
      else if p.check .IF then ifStatementP fuel (p.advance).2
      else if p.check .PRINT then printStatementP fuel (p.advance).2
      else if p.check .WHILE then whileStatementP fuel (p.advance).2
      else if p.check .LEFT_BRACE then
        (blockP fuel (p.advance).2).bind (fun r => .ok (.block r.1, r.2))
      else if p.check .FUN then functionDeclarationP fuel (p.advance).2
      else if p.check .RETURN then returnStatementP fuel (p.advance).2
      else if p.check .BREAK then breakStatementP fuel (p.advance).2
      else expressionStatementP fuel p

/-- Rule `forStatement` (`part_006`): desugars at parse time into a while
wrapped in blocks; no for node exists. -/
def forStatementP : Nat → Parser → Except ParseErr (Stmt × Parser)
  | 0, _ => .error .oot
  | fuel + 1, p => do
      let (_, p) ← p.consume .LEFT_PAREN "Expect ( after for."
      let (initializer, p) ← do
        let (m, p) := p.matchT [.SEMICOLON]
        if m then pure (none, p) else do
        let (m, p) := p.matchT [.VAR]
        if m then do
          let (s, p) ← varDeclarationP fuel p
          pure (some s, p)
        else do
          let (s, p) ← expressionStatementP fuel p
          pure (some s, p)
      let (condition, p) ←
        if ¬p.check .SEMICOLON then do
          let (c, p) ← expressionP fuel p
          pure (some c, p)
        else pure (none, p)
      let (_, p) ← p.consume .SEMICOLON "Expected ; after loop condition."
      let (increment, p) ←
        if ¬p.check .RIGHT_PAREN then do
          let (c, p) ← expressionP fuel p
          pure (some c, p)
        else pure (none, p)
      let (_, p) ← p.consume .RIGHT_PAREN "Expected ) after for clauses."
      let (body, p) ← statementP fuel p
      let body := match increment with
        | some inc => Stmt.block [body, .expression inc]
        | none => body
      let condition := condition.getD (.literal (.vbool true))
      let body := Stmt.whileS condition body
      let body := match initializer with
        | some init => Stmt.block [init, body]
        | none => body
      .ok (body, p)

/-- Rule `ifStatement` (`part_006`). -/
def ifStatementP : Nat → Parser → Except ParseErr (Stmt × Parser)
  | 0, _ => .error .oot
  | fuel + 1, p => do
      let (_, p) ← p.consume .LEFT_PAREN "Expect ( after if."
      let (condition, p) ← expressionP fuel p
      let (_, p) ← p.consume .RIGHT_PAREN "Expect ) after if condition."
      let (thenBranch, p) ← statementP fuel p
      let (m, p) := p.matchT [.ELSE]
      if m then do
        let (elseBranch, p) ← statementP fuel p
        .ok (.ifS condition thenBranch (some elseBranch), p)
      else .ok (.ifS condition thenBranch none, p)

/-- Rule `printStatement` (`part_006`). -/
def printStatementP : Nat → Parser → Except ParseErr (Stmt × Parser)
  | 0, _ => .error .oot
  | fuel + 1, p => do
      let (value, p) ← expressionP fuel p
      let (_, p) ← p.consume .SEMICOLON "Expect ; after value."
      .ok (.print value, p)

/-- Rule `varDeclaration` (`part_006`). -/
def varDeclarationP : Nat → Parser → Except ParseErr (Stmt × Parser)
  | 0, _ => .error .oot
  | fuel + 1, p => do
      let (name, p) ← p.consume .IDENTIFIER "Expect variable name."
      let (m, p) := p.matchT [.EQUAL]
      let (initializer, p) ←
        if m then do
          let (e, p) ← expressionP fuel p
          pure (some e, p)
        else pure (none, p)
      let (_, p) ← p.consume .SEMICOLON "Expected ; after variable declaration."
      .ok (.varDecl name initializer, p)

/-- Rule `whileStatement` (`part_006`). -/
def whileStatementP : Nat → Parser → Except ParseErr (Stmt × Parser)
  | 0, _ => .error .oot
  | fuel + 1, p => do
      let (_, p) ← p.consume .LEFT_PAREN "Expect ( after while."
      let (condition, p) ← expressionP fuel p
      let (_, p) ← p.consume .RIGHT_PAREN "Expect ) after condition."
      let (body, p) ← statementP fuel p
      .ok (.whileS condition body, p)

/-- Rule `expressionStatement` (`part_006`). -/
def expressionStatementP : Nat → Parser → Except ParseErr (Stmt × Parser)
  | 0, _ => .error .oot
  | fuel + 1, p => do
      let (expr, p) ← expressionP fuel p
      let (_, p) ← p.consume .SEMICOLON "Expect ; after expression."
      .ok (.expression expr, p)

/-- Rule `block` (`part_006`). -/
def blockP : Nat → Parser → Except ParseErr (List Stmt × Parser)
  | 0, _ => .error .oot
  | fuel + 1, p =>
      if ¬p.check .RIGHT_BRACE ∧ ¬p.isAtEnd then do
        let (s, p) ← declarationP fuel p
        let (rest, p) ← blockP fuel p
        .ok (s :: rest, p)
      else do
        let (_, p) ← p.consume .RIGHT_BRACE "Expected closing brace after block."
        .ok ([], p)

/-- Modelled from the spec: the function-declaration rule reached from the
`fun` branch of `statement` (spec section 4.2); the concrete parser revision
is absent from the sources.  Shape forced by the `FunctionStmt` node of
`part_002` (name token, parameter tokens, body statement list) and the
standard fun name ( params ) block grammar the spec refers to. -/
def functionDeclarationP : Nat → Parser → Except ParseErr (Stmt × Parser)
  | 0, _ => .error .oot
  | fuel + 1, p => do
      let (name, p) ← p.consume .IDENTIFIER "Expect function name."
      let (_, p) ← p.consume .LEFT_PAREN "Expect ( after function name."
      let (params, p) ←
        if ¬p.check .RIGHT_PAREN then paramsLoopP fuel p
        else pure ([], p)
      let (_, p) ← p.consume .RIGHT_PAREN "Expect ) after parameters."
      let (_, p) ← p.consume .LEFT_BRACE "Expect opening brace before body."
      let (body, p) ← blockP fuel p
      .ok (.function name params body, p)

/-- Modelled from the spec: comma-separated parameter names of a function
declaration. -/
def paramsLoopP : Nat → Parser → Except ParseErr (List Token × Parser)
  | 0, _ => .error .oot
  | fuel + 1, p => do
      let (param, p) ← p.consume .IDENTIFIER "Expect parameter name."
      let (m, p) := p.matchT [.COMMA]
      if m then do
        let (rest, p) ← paramsLoopP fuel p
        .ok (param :: rest, p)
      else .ok ([param], p)

/-- Modelled from the spec: the return-statement rule reached from the
`return` branch of `statement` (spec section 4.2); an optional value
expression before the semicolon, matching the `ReturnStmt` node of
`part_002`. -/
def returnStatementP : Nat → Parser → Except ParseErr (Stmt × Parser)
  | 0, _ => .error .oot
  | fuel + 1, p => do
      let (value, p) ←
        if ¬p.check .SEMICOLON then do
          let (e, p) ← expressionP fuel p
          pure (some e, p)
        else pure (none, p)
      let (_, p) ← p.consume .SEMICOLON "Expect ; after return value."
      .ok (.ret value, p)

/-- Modelled from the spec: the break-statement rule reached from the
`break` branch of `statement` (spec section 4.2), matching the bare
`BreakStmt` node of `part_002`. -/
def breakStatementP : Nat → Parser → Except ParseErr (Stmt × Parser)
  | 0, _ => .error .oot
  | _fuel + 1, p => do
      let (_, p) ← p.consume .SEMICOLON "Expect ; after break."
      .ok (.breakS, p)

end

/-- Loop of `Parse` (`part_006`): declarations until end of input.  The first
fatal error aborts the whole parse (`log.Fatal`). -/
def parseLoop : Nat → Parser → Except ParseErr (List Stmt)
  | 0, _ => .error .oot
  | fuel + 1, p =>
      if ¬p.isAtEnd then do
        let (s, p) ← declarationP fuel p
        let rest ← parseLoop fuel p
        .ok (s :: rest)
      else .ok []

/-- Entry point `Parse` over a token list. -/
def Parse (tokens : List Token) (fuel : Nat := 1000) : Except ParseErr (List Stmt) :=
  parseLoop fuel { tokens := tokens, current := 0 }

/-- Errors surfaced by one parsing pass: `log.Fatal` aborts the process at
the first error, so a run reports at most one. -/
def parseReport (tokens : List Token) (fuel : Nat := 1000) : List ParseErr :=
  match Parse tokens fuel with
  | .ok _ => []
  | .error e => [e]

/-- Helper to build a keyword or punctuation token. -/
def mkTok (t : TokenType) (lx : String) (ln : Int) : Token :=
  { tokenType := t, lexeme := lx, literal := .vnil, line := ln }

/-- Helper to build a number token. -/
def mkNum (q : Qv) (ln : Int) : Token :=
  { tokenType := .NUMBER, lexeme := "n", literal := .vnum q, line := ln }

/-- Stop condition of the synchronize discard loop, as the code actually
checks it: end of input, a just-consumed semicolon, or a RETURN lookahead
(the only keyword case of the Go switch with a body). -/
def syncStop (p : Parser) : Bool :=
  p.isAtEnd ∨ (p.previous).tokenType = .SEMICOLON ∨ (p.peek).tokenType = .RETURN

theorem syncLoop_spec (fuel : Nat) :
    ∀ p : Parser, p.tokens.length + 1 - p.current ≤ fuel →
      syncStop (Parser.syncLoop fuel p)
      ∧ (Parser.syncLoop fuel p).tokens = p.tokens
      ∧ p.current ≤ (Parser.syncLoop fuel p).current
      ∧ ∀ k, p.current ≤ k → k < (Parser.syncLoop fuel p).current →
          ¬ syncStop { tokens := p.tokens, current := k } := by
  induction fuel with
  | zero =>
      intro p hf
      have hcur : p.tokens.length < p.current := by omega
      have hnone : p.tokens[p.current]? = none := List.getElem?_eq_none (by omega)
      have hend : p.isAtEnd = true := by
        simp [Parser.isAtEnd, Parser.peek, List.getD, hnone, Parser.outTok]
      refine ⟨by simp [Parser.syncLoop, syncStop, hend], by simp [Parser.syncLoop],
        by simp [Parser.syncLoop], ?_⟩
      intro k hk1 hk2
      simp [Parser.syncLoop] at hk2
      omega
  | succ fuel ih =>
      intro p hf
      by_cases hend : p.isAtEnd = true
      · refine ⟨by simp [Parser.syncLoop, hend, syncStop],
          by simp [Parser.syncLoop, hend], by simp [Parser.syncLoop, hend], ?_⟩
        intro k hk1 hk2
        simp [Parser.syncLoop, hend] at hk2
        omega
      · by_cases hsemi : (p.previous).tokenType = TokenType.SEMICOLON
        · refine ⟨by simp [Parser.syncLoop, hend, hsemi, syncStop],
            by simp [Parser.syncLoop, hend, hsemi],
            by simp [Parser.syncLoop, hend, hsemi], ?_⟩
          intro k hk1 hk2
          simp [Parser.syncLoop, hend, hsemi] at hk2
          omega
        · by_cases hret : (p.peek).tokenType = TokenType.RETURN
          · refine ⟨by simp [Parser.syncLoop, hend, hsemi, hret, syncStop],
              by simp [Parser.syncLoop, hend, hsemi, hret],
              by simp [Parser.syncLoop, hend, hsemi, hret], ?_⟩
            intro k hk1 hk2
            simp [Parser.syncLoop, hend, hsemi, hret] at hk2
            omega
          · have hstep : Parser.syncLoop (fuel + 1) p =
                Parser.syncLoop fuel { p with current := p.current + 1 } := by
              simp [Parser.syncLoop, hend, hsemi, hret, Parser.advance]
            have hcur : p.current < p.tokens.length := by
              by_contra hge
              have hnone : p.tokens[p.current]? = none :=
                List.getElem?_eq_none (by omega)
              have : p.isAtEnd = true := by
                simp [Parser.isAtEnd, Parser.peek, List.getD, hnone, Parser.outTok]
              exact hend this
            have ih2 := ih { p with current := p.current + 1 } (by simp; omega)
            refine ⟨by rw [hstep]; exact ih2.1, by rw [hstep]; exact ih2.2.1,
              by rw [hstep]; exact Nat.le_trans (Nat.le_succ _) ih2.2.2.1, ?_⟩
            intro k hk1 hk2
            rw [hstep] at hk2
            rcases Nat.lt_or_ge k (p.current + 1) with hlt | hge
            · have hkp : k = p.current := by omega
              subst hkp
              simp [syncStop, hend, hsemi, hret]
            · exact ih2.2.2.2 k hge hk2

/-- Token stream of a program with two independent syntax errors in separate
statements (1 + ; on line 1, then 2 + ; on line 2). -/
def twoErrTokens : List Token :=
  [mkNum 1 1, mkTok .PLUS "+" 1, mkTok .SEMICOLON ";" 1,
   mkNum 2 2, mkTok .PLUS "+" 2, mkTok .SEMICOLON ";" 2, mkTok .EOF "" 2]

/-- C3 counterexample: on an input with two independent syntax errors the
parse reports only the first (line 1) error — `consume`/`primary` call
`log.Fatal`, which aborts the run, and `synchronize` is never invoked — so
the pass does not report both errors as the claim states.  The line-2 error
is genuine: parsing that statement alone reports it. -/
theorem parse_does_not_report_second_error :
    parseReport twoErrTokens = [.fatal 1 "Expected expression."]
    ∧ ParseErr.fatal 2 "Expected expression." ∉ parseReport twoErrTokens
    ∧ parseReport [mkNum 2 2, mkTok .PLUS "+" 2, mkTok .SEMICOLON ";" 2,
        mkTok .EOF "" 2] = [.fatal 2 "Expected expression."] := by
  exact ⟨rfl, by decide, rfl⟩

/-- C3 amended: on a malformed construct the parser reports the error at the
offending token line and aborts the whole parse at once (`log.Fatal`), so a
single pass surfaces at most the first syntax error; the `synchronize` helper
is never called by the parser, and had it run, its discard loop stops exactly
at the first position where a semicolon was just consumed, or the lookahead
is `return`, or the input is exhausted — the keyword cases
`class`/`fun`/`var`/`if`/`while`/`print` of its Go switch are empty and stop
nothing. -/
theorem parse_aborts_at_first_error (ts : List Token) (i : Nat) :
    parseReport twoErrTokens = [.fatal 1 "Expected expression."]
    ∧ syncStop (Parser.synchronize { tokens := ts, current := i })
    ∧ (∀ k, (({ tokens := ts, current := i } : Parser).advance).2.current ≤ k →
        k < (Parser.synchronize { tokens := ts, current := i }).current →
        ¬ syncStop { tokens := ts, current := k }) := by
  have h := syncLoop_spec (ts.length + 1)
    (({ tokens := ts, current := i } : Parser).advance).2
    (by simp [Parser.advance]; split <;> simp)
  refine ⟨rfl, h.1, ?_⟩
  intro k hk1 hk2
  have htoks : (({ tokens := ts, current := i } : Parser).advance).2.tokens = ts := by
    simp [Parser.advance]
    split <;> simp
  rw [← htoks]
  exact h.2.2.2 k hk1 hk2

/-- Token stream used by the C3 witness: an offending token followed by
`var`, `if` and `return` keywords. -/
def syncDemoTokens : List Token :=
  [mkTok .PLUS "+" 1, mkTok .VAR "var" 1, mkTok .IF "if" 1,
   mkTok .RETURN "return" 1, mkTok .EOF "" 1]

/-- Witness for C3: synchronize started at position 0 advances past the
`var` keyword at position 1 (no stop there) and halts only where the
lookahead is `return`. -/
theorem parse_aborts_at_first_error_witness :
    ¬ syncStop { tokens := syncDemoTokens, current := 1 }
    ∧ syncStop (Parser.synchronize { tokens := syncDemoTokens, current := 0 }) := by
  have h := parse_aborts_at_first_error syncDemoTokens 0
  exact ⟨h.2.2 1 (by decide) (by decide), h.2.1⟩

/-- C2: the `statement` rule dispatches on the next token to a `for`, `if`,
`print` or `while` statement, a block on a left brace, a function declaration
on `fun`, a `return` statement, a `break` statement, and otherwise falls
through to an expression statement; concretely, programs beginning with the
tokens `fun`, `return` and `break` parse into the corresponding statement
nodes instead of being rejected.  (The `fun`/`return`/`break` branches are
modelled from spec section 4.2, the rest ported from `part_006`.) -/
theorem statement_dispatch (fuel : Nat) (p : Parser) :
    ((p.peek).tokenType = .FOR →
      statementP (fuel + 1) p = forStatementP fuel (p.advance).2)
    ∧ ((p.peek).tokenType = .IF →
      statementP (fuel + 1) p = ifStatementP fuel (p.advance).2)
    ∧ ((p.peek).tokenType = .PRINT →
      statementP (fuel + 1) p = printStatementP fuel (p.advance).2)
    ∧ ((p.peek).tokenType = .WHILE →
      statementP (fuel + 1) p = whileStatementP fuel (p.advance).2)
    ∧ ((p.peek).tokenType = .LEFT_BRACE →
      statementP (fuel + 1) p =
        (blockP fuel (p.advance).2).bind (fun r => .ok (.block r.1, r.2)))
    ∧ ((p.peek).tokenType = .FUN →
      statementP (fuel + 1) p = functionDeclarationP fuel (p.advance).2)
    ∧ ((p.peek).tokenType = .RETURN →
      statementP (fuel + 1) p = returnStatementP fuel (p.advance).2)
    ∧ ((p.peek).tokenType = .BREAK →
      statementP (fuel + 1) p = breakStatementP fuel (p.advance).2)
    ∧ ((p.peek).tokenType ∉ ([.FOR, .IF, .PRINT, .WHILE, .LEFT_BRACE, .FUN,
        .RETURN, .BREAK] : List TokenType) →
      statementP (fuel + 1) p = expressionStatementP fuel p)
    ∧ Parse [mkTok .FUN "fun" 1, mkTok .IDENTIFIER "f" 1,
        mkTok .LEFT_PAREN "(" 1, mkTok .RIGHT_PAREN ")" 1,
        mkTok .LEFT_BRACE "" 1, mkTok .RIGHT_BRACE "" 1, mkTok .EOF "" 1] 20 =
      .ok [.function (mkTok .IDENTIFIER "f" 1) [] []]
    ∧ Parse [mkTok .RETURN "return" 1, mkTok .SEMICOLON ";" 1,
        mkTok .EOF "" 1] 20 = .ok [.ret none]
    ∧ Parse [mkTok .BREAK "break" 1, mkTok .SEMICOLON ";" 1,
        mkTok .EOF "" 1] 20 = .ok [.breakS] := by
  refine ⟨?_, ?_, ?_, ?_, ?_, ?_, ?_, ?_, ?g9, rfl, rfl, rfl⟩
  case g9 =>
    intro h
    simp only [List.mem_cons, List.mem_singleton] at h
    push_neg at h
    obtain ⟨h1, h2, h3, h4, h5, h6, h7, h8⟩ := h
    rw [statementP]
    simp [Parser.check, h1, h2, h3, h4, h5, h6, h7, h8]
  all_goals
    intro h
    rw [statementP]
    simp [Parser.check, Parser.isAtEnd, h]

/-- Witness for C2: the dispatch equations applied at concrete states whose
lookaheads are `fun`, `return` and a number (fallthrough). -/
theorem statement_dispatch_witness :
    (statementP 11 (Parser.mk [mkTok .FUN "fun" 1, mkTok .EOF "" 1] 0) =
      functionDeclarationP 10 (Parser.mk [mkTok .FUN "fun" 1, mkTok .EOF "" 1] 1))
    ∧ (statementP 11 (Parser.mk [mkTok .RETURN "return" 1, mkTok .EOF "" 1] 0) =
      returnStatementP 10 (Parser.mk [mkTok .RETURN "return" 1, mkTok .EOF "" 1] 1))
    ∧ (statementP 11 (Parser.mk [mkNum 7 1, mkTok .EOF "" 1] 0) =
      expressionStatementP 10 (Parser.mk [mkNum 7 1, mkTok .EOF "" 1] 0)) := by
  refine ⟨?_, ?_, ?_⟩
  · have h := statement_dispatch 10 (Parser.mk [mkTok .FUN "fun" 1, mkTok .EOF "" 1] 0)
    have h2 := h.2.2.2.2.2.1 (by decide)
    simpa [Parser.advance, Parser.isAtEnd, Parser.peek] using h2
  · have h := statement_dispatch 10
      (Parser.mk [mkTok .RETURN "return" 1, mkTok .EOF "" 1] 0)
    have h2 := h.2.2.2.2.2.2.1 (by decide)
    simpa [Parser.advance, Parser.isAtEnd, Parser.peek] using h2
  · have h := statement_dispatch 10 (Parser.mk [mkNum 7 1, mkTok .EOF "" 1] 0)
    exact h.2.2.2.2.2.2.2.2.1 (by decide)

/-! ## Evaluator (`interpreter.go` and `lox_function.go`)

Environments here are heap cells addressed by index, because closures share
mutable scopes: `NewEnclosingEnvironment` appends a fresh cell whose
`enclosing` points at an existing (lower) address, and `get`/`assign` walk
the same outward chain embedded above as `Environment.get`/`assign` — the
walk carries gas `heap.length + 1`, which always suffices since enclosing
addresses strictly decrease.  `*LoxFunction` values are indices into an
allocation list, so Go pointer equality is index equality.  Statement
results thread the Go `interface` result: `norm (val v)` an ordinary value,
`norm (ret v)` a `*ReturnError` (an ordinary return value in the Go code,
inspected only by `executeBlock` and `LoxFunction.call`); `brk` is the
`panic(&BreakError)` unwinding, absorbed only by the `VisitWhileStmt`
recover; `fatal` is `log.Fatal` or an unrecovered runtime panic, which
nothing absorbs (deferred environment restores are skipped on `fatal`, as
`os.Exit` skips defers).  Apostrophes and colour codes in diagnostic strings
are dropped (presentation, spec section 6).  The native clock result is
abstracted to 0 seconds. -/

/-- Heap cell: the `values` map and `enclosing` pointer of a Go
`Environment`, with the pointer as an address. -/
structure EnvCell where
  values : Frame
  enclosing : Option Nat
deriving Repr

/-- A `*LoxFunction`: declaration parts plus captured closure address. -/
structure FunObj where
  name : Token
  params : List Token
  body : List Stmt
  closure : Nat
deriving Repr

/-- Interpreter state: environment heap, function allocations, the current
environment field of the `Interpreter` struct, and the stdout lines. -/
structure St where
  heap : List EnvCell
  funs : List FunObj
  env : Nat
  output : List String
deriving Repr

def emptyCell : EnvCell := { values := [], enclosing := none }

def defaultFunObj : FunObj :=
  { name := mkTok .IDENTIFIER "" (-1), params := [], body := [], closure := 0 }

/-- Environment `get` over the heap (method of `part_000`, heap-addressed). -/
def heapGet (heap : List EnvCell) : Nat → Nat → Token → Except RtErr Value
  | 0, _, name =>
      .error (.report name.line ("Undefined variable " ++ name.lexeme ++ "."))
  | gas + 1, addr, name =>
      let cell := heap.getD addr emptyCell
      match frameLookup cell.values name.lexeme with
      | some v => .ok v
      | none =>
          match cell.enclosing with
          | some par => heapGet heap gas par name
          | none =>
              .error (.report name.line
                ("Undefined variable " ++ name.lexeme ++ "."))

/-- Environment `assign` over the heap (method of `part_000`,
heap-addressed): rewrite the first chain cell holding the name. -/
def heapAssign (heap : List EnvCell) : Nat → Nat → Token → Value →
    Except RtErr (List EnvCell)
  | 0, _, name, _ =>
      .error (.report name.line ("Undefined variable " ++ name.lexeme ++ "."))
  | gas + 1, addr, name, v =>
      let cell := heap.getD addr emptyCell
      match frameLookup cell.values name.lexeme with
      | some _ =>
          .ok (heap.set addr
            { cell with values := frameInsert cell.values name.lexeme v })
      | none =>
          match cell.enclosing with
          | some par => heapAssign heap gas par name v
          | none =>
              .error (.report name.line
                ("Undefined variable " ++ name.lexeme ++ "."))

/-- Environment `define` over the heap: bind in the addressed cell only. -/
def heapDefine (heap : List EnvCell) (addr : Nat) (name : String) (v : Value) :
    List EnvCell :=
  let cell := heap.getD addr emptyCell
  heap.set addr { cell with values := frameInsert cell.values name v }

def stGet (st : St) (name : Token) : Except RtErr Value :=
  heapGet st.heap (st.heap.length + 1) st.env name

def stAssign (st : St) (name : Token) (v : Value) : Except RtErr St :=
  match heapAssign st.heap (st.heap.length + 1) st.env name v with
  | .ok heap2 => .ok { st with heap := heap2 }
  | .error e => .error e

def stDefine (st : St) (name : String) (v : Value) : St :=
  { st with heap := heapDefine st.heap st.env name v }

/-- Port of `NewEnclosingEnvironment`: append a fresh empty cell enclosing the given
address; returns its address. -/
def allocEnv (st : St) (enclosing : Option Nat) : Nat × St :=
  (st.heap.length,
   { st with heap := st.heap ++ [{ values := [], enclosing := enclosing }] })

/-- Method `isTruthy`: nil and false are falsey, all else truthy. -/
def isTruthy (object : Value) : Bool :=
  match object with
  | .vnil => false
  | .vbool v => v
  | _ => true

/-- Method `isEqual` of `interpreter.go` (lines 343-376): nil/nil true, one
nil false, then the float, string and bool type tests each returning false on
a right operand of another type, and the final Go interface comparison, which
for the remaining callable values is pointer (index) equality. -/
def isEqual (a b : Value) : Bool :=
  match a, b with
  | .vnil, .vnil => true
  | .vnil, _ => false
  | _, .vnil => false
  | .vnum x, .vnum y => x = y
  | .vnum _, _ => false
  | .vstr x, .vstr y => x = y
  | .vstr _, _ => false
  | .vbool x, .vbool y => x = y
  | .vbool _, _ => false
  | .vclock, .vclock => true
  | .vfun i, .vfun j => i = j
  | _, _ => false

/-- Six zero-padded decimal digits of `n % 1000000`, the fractional digits
that Go fixed-point formatting emits. -/
def sixFracDigits (n : Nat) : String :=
  String.mk [Char.ofNat (48 + n / 100000 % 10), Char.ofNat (48 + n / 10000 % 10),
    Char.ofNat (48 + n / 1000 % 10), Char.ofNat (48 + n / 100 % 10),
    Char.ofNat (48 + n / 10 % 10), Char.ofNat (48 + n % 10)]

/-- Model of fmt `%f` on a nonnegative rational: the value rounded to six
decimal places, rendered as integer digits, a dot, and six fractional
digits.  (Go rounds the exact binary double to nearest; on the rational
abstraction we round to nearest likewise, ties up, which agrees on every
value whose sixth decimal is not an exact tie.) -/
def formatFmag (q : Qv) : String :=
  let n : Nat := Qv.round6 q
  toString (n / 1000000) ++ "." ++ sixFracDigits (n % 1000000)

/-- Model of fmt `%f` on a rational (sign then magnitude). -/
def formatF (q : Qv) : String :=
  if q.num < 0 then "-" ++ formatFmag (Qv.neg q) else formatFmag q

/-- The last seven characters are a dot followed by six zeros: the model of
strings.HasSuffix with suffix .000000 (characters compared from the end). -/
def endsWithDotZeros (s : String) : Bool :=
  decide (s.toList.reverse.take 7 = ['0', '0', '0', '0', '0', '0', '.'])

/-- Drop the last seven characters: the model of the Go slice
text[:len(text)-7]. -/
def dropLast7 (s : String) : String :=
  String.mk (s.toList.take (s.toList.length - 7))

/-- Drop trailing zero characters and then a trailing dot. -/
def trimTrailZeros (s : String) : String :=
  let l := s.toList.reverse.dropWhile (fun c => c = '0')
  let l2 := match l with
    | '.' :: rest => rest
    | _ => l
  String.mk l2.reverse

/-- Model of fmt `%v` on a float64: integral values print as plain integer
digits; non-integral values print their decimal expansion (modelled to six
places with trailing zeros trimmed, exact for the short decimals arising
here; Go would use the shortest round-tripping form). -/
def goV (q : Qv) : String :=
  if q.den = 1 then toString q.num else trimTrailZeros (formatF q)

/-- Function `stringify` of `interpreter.go`: a nil value is a fatal
undefined-variable report when a variable token is at hand and a nil-pointer
panic otherwise; numbers are fixed-point formatted with a trailing
`.000000` suffix trimmed; everything else renders with `%v` (strings as-is,
booleans as true/false, callables via their String methods). -/
def stringify (funs : List FunObj) (token : Option Token) (object : Value) :
    Except RtErr String :=
  match object with
  | .vnil =>
      match token with
      | some t =>
          .error (.report t.line ("Variable " ++ t.lexeme ++ " is undefined."))
      | none => .error .nilDeref
  | .vnum v =>
      let text := formatF v
      .ok (if endsWithDotZeros text then dropLast7 text else text)
  | .vstr s => .ok s
  | .vbool b => .ok (if b then "true" else "false")
  | .vclock => .ok "<native fn>"
  | .vfun addr => .ok ("<fn " ++ ((funs.getD addr defaultFunObj).name).lexeme ++ ">")

/-- Unary operator evaluation (`VisitUnaryExpr` after evaluating the
operand): bang negates truthiness, minus requires a number; other operators
fall off the switch returning nil. -/
def evalUnary (operator : Token) (right : Value) : Except RtErr Value :=
  match operator.tokenType with
  | .BANG => .ok (.vbool (!isTruthy right))
  | .MINUS =>
      match right with
      | .vnum q => .ok (.vnum (Qv.neg q))
      | _ => .error (.report operator.line "Operand must be a number.")
  | _ => .ok .vnil

/-- Binary operator evaluation (`VisitBinaryExpr` after evaluating both
operands): arithmetic and relational operators require numbers; plus is
overloaded over numbers and strings; slash additionally rejects a zero on
either side; equality never fails. -/
def evalBinary (operator : Token) (l r : Value) : Except RtErr Value :=
  match operator.tokenType with
  | .MINUS =>
      match l, r with
      | .vnum a, .vnum b => .ok (.vnum (Qv.sub a b))
      | _, _ => .error (.report operator.line "Operands must be numbers.")
  | .PLUS =>
      match l, r with
      | .vnum a, .vnum b => .ok (.vnum (Qv.add a b))
      | .vstr a, .vstr b => .ok (.vstr (a ++ b))
      | .vstr a, .vnum b => .ok (.vstr (a ++ goV b))
      | .vnum a, .vstr b => .ok (.vstr (goV a ++ b))
      | _, _ =>
          .error (.report operator.line
            "Operands must be two numbers or two strings.")
  | .SLASH =>
      match l, r with
      | .vnum a, .vnum b =>
          if a = 0 ∨ b = 0 then
            .error (.report operator.line "Division by 0 is not allowed.")
          else .ok (.vnum (Qv.div a b))
      | _, _ => .error (.report operator.line "Operands must be numbers.")
  | .STAR =>
      match l, r with
      | .vnum a, .vnum b => .ok (.vnum (Qv.mul a b))
      | _, _ => .error (.report operator.line "Operands must be numbers.")
  | .GREATER =>
      match l, r with
      | .vnum a, .vnum b => .ok (.vbool (Qv.blt b a))
      | _, _ => .error (.report operator.line "Operands must be numbers.")
  | .GREATER_EQUAL =>
      match l, r with
      | .vnum a, .vnum b => .ok (.vbool (Qv.ble b a))
      | _, _ => .error (.report operator.line "Operands must be numbers.")
  | .LESS =>
      match l, r with
      | .vnum a, .vnum b => .ok (.vbool (Qv.blt a b))
      | _, _ => .error (.report operator.line "Operands must be numbers.")
  | .LESS_EQUAL =>
      match l, r with
      | .vnum a, .vnum b => .ok (.vbool (Qv.ble a b))
      | _, _ => .error (.report operator.line "Operands must be numbers.")
  | .BANG_EQUAL => .ok (.vbool (!isEqual l r))
  | .EQUAL_EQUAL => .ok (.vbool (isEqual l r))
  | _ => .ok .vnil

/-- Expression outcome: a value, a propagating break panic, a fatal abort,
or fuel exhaustion. -/
inductive EvalRes where
  | ok (v : Value)
  | brk
  | fatal (e : RtErr)
  | oot
deriving DecidableEq, Repr

/-- The Go `interface` result of executing one statement: a plain value or a
`*ReturnError` wrapping the returned value. -/
inductive GoRes where
  | val (v : Value)
  | ret (v : Value)
deriving DecidableEq, Repr

/-- Statement outcome: a normal Go result, a propagating break panic, a
fatal abort, or fuel exhaustion. -/
inductive ExecRes where
  | norm (r : GoRes)
  | brk
  | fatal (e : RtErr)
  | oot
deriving DecidableEq, Repr

/-- Lift a non-value expression outcome into a statement outcome (a value
becomes the plain statement result). -/
def liftEval : EvalRes → ExecRes
  | .ok v => .norm (.val v)
  | .brk => .brk
  | .fatal e => .fatal e
  | .oot => .oot

/-- Argument-list evaluation outcome. -/
inductive ArgsRes where
  | oks (vs : List Value)
  | brkA
  | fatalA (e : RtErr)
  | ootA
deriving Repr

/-- Parameter binding of `LoxFunction.call`: define each parameter to its
positional argument in the fresh call environment. -/
def bindParams (addr : Nat) : List Token → List Value → St → St
  | p :: ps, v :: vs, st =>
      bindParams addr ps vs { st with heap := heapDefine st.heap addr p.lexeme v }
  | _, _, st => st

/-! The mutually recursive evaluator methods are tied together through a
single fuel-indexed knot `interpRun` over a request sum `Req`: each Go
method below is a plain non-recursive function (suffix F) receiving the
recursive evaluator as its `recur` argument, and the fuel-matching wrappers
after the knot recover the method signatures.  (This keeps kernel reduction
of concrete runs linear in the trace.) -/

/-- Request to the recursive evaluator: evaluate an expression, an argument
list, perform a call, execute a statement, run a while loop with the result
accumulator, run `executeBlock`, or run its statement loop. -/
inductive Req where
  | evalR (e : Expr)
  | argsR (es : List Expr)
  | callR (cv : Value) (paren : Token) (args : List Value)
  | execR (s : Stmt)
  | whileR (cond : Expr) (body : Stmt) (acc : GoRes)
  | blockR (stmts : List Stmt) (envAddr : Nat)
  | blockLoopR (stmts : List Stmt) (acc : GoRes)
deriving Repr

/-- Result sum matching the request kinds. -/
inductive Res where
  | evalRes (r : EvalRes)
  | argsRes (r : ArgsRes)
  | execRes (r : ExecRes)
deriving Repr

/-- The out-of-fuel result for each request kind. -/
def ootOf : Req → Res
  | .evalR _ => .evalRes .oot
  | .argsR _ => .argsRes .ootA
  | .callR _ _ _ => .evalRes .oot
  | .execR _ => .execRes .oot
  | .whileR _ _ _ => .execRes .oot
  | .blockR _ _ => .execRes .oot
  | .blockLoopR _ _ => .execRes .oot

/-- Shorthand for the type of the recursive evaluator. -/
abbrev Recur := Req → St → St × Res

def recurEval (recur : Recur) (e : Expr) (st : St) : St × EvalRes :=
  match recur (.evalR e) st with
  | (st, .evalRes r) => (st, r)
  | (st, _) => (st, .oot)

def recurArgs (recur : Recur) (es : List Expr) (st : St) : St × ArgsRes :=
  match recur (.argsR es) st with
  | (st, .argsRes r) => (st, r)
  | (st, _) => (st, .ootA)

def recurCall (recur : Recur) (cv : Value) (paren : Token) (args : List Value)
    (st : St) : St × EvalRes :=
  match recur (.callR cv paren args) st with
  | (st, .evalRes r) => (st, r)
  | (st, _) => (st, .oot)

def recurExec (recur : Recur) (s : Stmt) (st : St) : St × ExecRes :=
  match recur (.execR s) st with
  | (st, .execRes r) => (st, r)
  | (st, _) => (st, .oot)

def recurWhile (recur : Recur) (cond : Expr) (body : Stmt) (acc : GoRes)
    (st : St) : St × ExecRes :=
  match recur (.whileR cond body acc) st with
  | (st, .execRes r) => (st, r)
  | (st, _) => (st, .oot)

def recurBlock (recur : Recur) (stmts : List Stmt) (envAddr : Nat)
    (st : St) : St × ExecRes :=
  match recur (.blockR stmts envAddr) st with
  | (st, .execRes r) => (st, r)
  | (st, _) => (st, .oot)

def recurBlockLoop (recur : Recur) (stmts : List Stmt) (acc : GoRes)
    (st : St) : St × ExecRes :=
  match recur (.blockLoopR stmts acc) st with
  | (st, .execRes r) => (st, r)
  | (st, _) => (st, .oot)

/-- Port of `VisitLogicalExpr`: short-circuit on the left value. -/
def visitLogicalExprF (recur : Recur) (left : Expr) (operator : Token)
    (right : Expr) (st : St) : St × EvalRes :=
  match recurEval recur left st with
  | (st, .ok lv) =>
      if operator.tokenType = .OR then
        if isTruthy lv then (st, .ok lv) else recurEval recur right st
      else
        if !isTruthy lv then (st, .ok lv) else recurEval recur right st
  | (st, r) => (st, r)

/-- Port of `VisitUnaryExpr`. -/
def visitUnaryExprF (recur : Recur) (operator : Token) (right : Expr)
    (st : St) : St × EvalRes :=
  match recurEval recur right st with
  | (st, .ok rv) =>
      (st, match evalUnary operator rv with
           | .ok v => .ok v
           | .error err => .fatal err)
  | (st, r) => (st, r)

/-- Port of `VisitBinaryExpr`: left operand first, then right, then the operator
dispatch. -/
def visitBinaryExprF (recur : Recur) (left : Expr) (operator : Token)
    (right : Expr) (st : St) : St × EvalRes :=
  match recurEval recur left st with
  | (st, .ok lv) =>
      match recurEval recur right st with
      | (st, .ok rv) =>
          (st, match evalBinary operator lv rv with
               | .ok v => .ok v
               | .error err => .fatal err)
      | (st, r) => (st, r)
  | (st, r) => (st, r)

/-- Port of `VisitAssignExpr`: evaluate, assign outward, yield the value. -/
def visitAssignExprF (recur : Recur) (name : Token) (valueE : Expr)
    (st : St) : St × EvalRes :=
  match recurEval recur valueE st with
  | (st, .ok v) =>
      match stAssign st name v with
      | .ok st2 => (st2, .ok v)
      | .error err => (st, .fatal err)
  | (st, r) => (st, r)

/-- Port of `VisitCallExpr`: evaluate the callee, then the arguments left to right,
then check callability and arity and perform the call. -/
def visitCallExprF (recur : Recur) (callee : Expr) (paren : Token)
    (args : List Expr) (st : St) : St × EvalRes :=
  match recurEval recur callee st with
  | (st, .ok cv) =>
      match recurArgs recur args st with
      | (st, .oks vs) => recurCall recur cv paren vs st
      | (st, .brkA) => (st, .brk)
      | (st, .fatalA err) => (st, .fatal err)
      | (st, .ootA) => (st, .oot)
  | (st, r) => (st, r)

/-- Left-to-right argument evaluation of `VisitCallExpr`. -/
def evalArgsF (recur : Recur) (es : List Expr) (st : St) : St × ArgsRes :=
  match es with
  | [] => (st, .oks [])
  | a :: rest =>
      match recurEval recur a st with
      | (st, .ok v) =>
          match recurArgs recur rest st with
          | (st, .oks vs) => (st, .oks (v :: vs))
          | (st, r) => (st, r)
      | (st, .brk) => (st, .brkA)
      | (st, .fatal err) => (st, .fatalA err)
      | (st, .oot) => (st, .ootA)

/-- Tail of `VisitCallExpr` plus `LoxFunction.call` and the native clock:
non-callables and arity mismatches are fatal; a user function call allocates
one child environment of the closure, binds the parameters, runs the body
through `executeBlock`, and unwraps a `*ReturnError` result into the return
value (otherwise nil).  A break panic keeps unwinding through the call. -/
def finishCallF (recur : Recur) (cv : Value) (paren : Token)
    (argvs : List Value) (st : St) : St × EvalRes :=
  match cv with
  | .vclock =>
      if argvs.length ≠ 0 then
        (st, .fatal (.report paren.line
          ("Expected 0 arguments but got " ++ toString argvs.length ++ ".")))
      else (st, .ok (.vnum 0))
  | .vfun addr =>
      let fn := st.funs.getD addr defaultFunObj
      if argvs.length ≠ fn.params.length then
        (st, .fatal (.report paren.line
          ("Expected " ++ toString fn.params.length ++ " arguments but got "
            ++ toString argvs.length ++ ".")))
      else
        let (newAddr, st) := allocEnv st (some fn.closure)
        let st := bindParams newAddr fn.params argvs st
        match recurBlock recur fn.body newAddr st with
        | (st, .norm (.ret v)) => (st, .ok v)
        | (st, .norm (.val _)) => (st, .ok .vnil)
        | (st, .brk) => (st, .brk)
        | (st, .fatal err) => (st, .fatal err)
        | (st, .oot) => (st, .oot)
  | _ => (st, .fatal (.report paren.line "Cant call non-callable object."))

/-- Port of `VisitExpressionStmt`: the expression value is the statement result. -/
def visitExpressionStmtF (recur : Recur) (e : Expr) (st : St) : St × ExecRes :=
  match recurEval recur e st with
  | (st, r) => (st, liftEval r)

/-- Port of `VisitPrintStmt`: remember the token when the operand is a variable
expression (for the undefined-variable report inside `stringify`), evaluate,
stringify and append one stdout line. -/
def visitPrintStmtF (recur : Recur) (e : Expr) (st : St) : St × ExecRes :=
  let token : Option Token :=
    match e with
    | .variableE name => some name
    | _ => none
  match recurEval recur e st with
  | (st, .ok v) =>
      match stringify st.funs token v with
      | .ok line =>
          ({ st with output := st.output ++ [line] }, .norm (.val .vnil))
      | .error err => (st, .fatal err)
  | (st, r) => (st, liftEval r)

/-- Port of `VisitVarStmt`: evaluate the optional initializer (nil otherwise) and
define in the current scope. -/
def visitVarStmtF (recur : Recur) (name : Token) (initializer : Option Expr)
    (st : St) : St × ExecRes :=
  match initializer with
  | some e =>
      match recurEval recur e st with
      | (st, .ok v) => (stDefine st name.lexeme v, .norm (.val .vnil))
      | (st, r) => (st, liftEval r)
  | none => (stDefine st name.lexeme .vnil, .norm (.val .vnil))

/-- Port of `VisitIfStmt`: the executed branch result is returned as-is (so a
`*ReturnError` propagates through it). -/
def visitIfStmtF (recur : Recur) (cond : Expr) (thenBranch : Stmt)
    (elseBranch : Option Stmt) (st : St) : St × ExecRes :=
  match recurEval recur cond st with
  | (st, .ok c) =>
      if isTruthy c then recurExec recur thenBranch st
      else
        match elseBranch with
        | some eb => recurExec recur eb st
        | none => (st, .norm (.val .vnil))
  | (st, r) => (st, liftEval r)

/-- Port of `VisitFunctionStmt`: allocate the `*LoxFunction` capturing the current
environment and define it under its name. -/
def visitFunctionStmtF (name : Token) (params : List Token) (body : List Stmt)
    (st : St) : St × ExecRes :=
  let idx := st.funs.length
  let st := { st with funs :=
    st.funs ++ [{ name := name, params := params, body := body,
                  closure := st.env }] }
  (stDefine st name.lexeme (.vfun idx), .norm (.val .vnil))

/-- Port of `VisitReturnStmt`: wrap the value in a `*ReturnError` statement
result. -/
def visitReturnStmtF (recur : Recur) (valueE : Option Expr) (st : St) :
    St × ExecRes :=
  match valueE with
  | some e =>
      match recurEval recur e st with
      | (st, .ok v) => (st, .norm (.ret v))
      | (st, r) => (st, liftEval r)
  | none => (st, .norm (.ret .vnil))

/-- Port of `VisitBlockStmt`: one fresh child scope, then `executeBlock`. -/
def visitBlockStmtF (recur : Recur) (stmts : List Stmt) (st : St) :
    St × ExecRes :=
  let (newAddr, st2) := allocEnv st (some st.env)
  recurBlock recur stmts newAddr st2

/-- Loop of `VisitWhileStmt`: the deferred recover absorbs a break panic
raised anywhere inside (condition or body) and makes the visit return nil;
the loop result variable is updated from every body execution — including a
`*ReturnError` result, which the loop does not inspect — and is returned
once the condition turns falsey. -/
def whileGoF (recur : Recur) (cond : Expr) (body : Stmt) (result : GoRes)
    (st : St) : St × ExecRes :=
  match recurEval recur cond st with
  | (st, .ok c) =>
      if isTruthy c then
        match recurExec recur body st with
        | (st, .norm r2) => recurWhile recur cond body r2 st
        | (st, .brk) => (st, .norm (.val .vnil))
        | (st, .fatal err) => (st, .fatal err)
        | (st, .oot) => (st, .oot)
      else (st, .norm result)
  | (st, .brk) => (st, .norm (.val .vnil))
  | (st, .fatal err) => (st, .fatal err)
  | (st, .oot) => (st, .oot)

/-- Method `executeBlock`: swap in the given environment, run the
statements, and restore the previous environment through the deferred
closure — which runs on normal completion and on a panic unwinding, but not
on `log.Fatal` (`os.Exit` skips defers). -/
def executeBlockF (recur : Recur) (statements : List Stmt) (environment : Nat)
    (st : St) : St × ExecRes :=
  let previous := st.env
  match recurBlockLoop recur statements (.val .vnil) { st with env := environment } with
  | (st2, .fatal err) => (st2, .fatal err)
  | (st2, .oot) => (st2, .oot)
  | (st2, r) => ({ st2 with env := previous }, r)

/-- Statement loop of `executeBlock`: each result overwrites the loop result
variable; a `*ReturnError` result returns early, skipping the remaining
statements; the last result (nil for an empty block) is returned. -/
def blockLoopF (recur : Recur) (stmts : List Stmt) (result : GoRes) (st : St) :
    St × ExecRes :=
  match stmts with
  | [] => (st, .norm result)
  | s :: rest =>
      match recurExec recur s st with
      | (st, .norm (.ret v)) => (st, .norm (.ret v))
      | (st, .norm rv) => recurBlockLoop recur rest rv st
      | (st, r) => (st, r)

/-- One step of the evaluator: dispatch a request to the method bodies
(`evaluate`/`execute` dispatch on the node kind, mirroring `accept`). -/
def interpStep (recur : Recur) : Req → St → St × Res
  | .evalR e, st =>
      match e with
      | .literal v => (st, .evalRes (.ok v))
      | .grouping inner => (recurEval recur inner st).map id Res.evalRes
      | .logical left operator right =>
          (visitLogicalExprF recur left operator right st).map id Res.evalRes
      | .unary operator right =>
          (visitUnaryExprF recur operator right st).map id Res.evalRes
      | .binary left operator right =>
          (visitBinaryExprF recur left operator right st).map id Res.evalRes
      | .variableE name =>
          (st, .evalRes (match stGet st name with
                         | .ok v => .ok v
                         | .error err => .fatal err))
      | .assign name valueE =>
          (visitAssignExprF recur name valueE st).map id Res.evalRes
      | .call callee paren args =>
          (visitCallExprF recur callee paren args st).map id Res.evalRes
  | .argsR es, st => (evalArgsF recur es st).map id Res.argsRes
  | .callR cv paren args, st => (finishCallF recur cv paren args st).map id Res.evalRes
  | .execR s, st =>
      match s with
      | .expression e => (visitExpressionStmtF recur e st).map id Res.execRes
      | .print e => (visitPrintStmtF recur e st).map id Res.execRes
      | .varDecl name initializer =>
          (visitVarStmtF recur name initializer st).map id Res.execRes
      | .ifS cond thenBranch elseBranch =>
          (visitIfStmtF recur cond thenBranch elseBranch st).map id Res.execRes
      | .function name params body =>
          (visitFunctionStmtF name params body st).map id Res.execRes
      | .ret valueE => (visitReturnStmtF recur valueE st).map id Res.execRes
      | .whileS cond body =>
          (whileGoF recur cond body (.val .vnil) st).map id Res.execRes
      | .block stmts => (visitBlockStmtF recur stmts st).map id Res.execRes
      | .breakS => (st, .execRes .brk)
  | .whileR cond body acc, st => (whileGoF recur cond body acc st).map id Res.execRes
  | .blockR stmts envAddr, st =>
      (executeBlockF recur stmts envAddr st).map id Res.execRes
  | .blockLoopR stmts acc, st => (blockLoopF recur stmts acc st).map id Res.execRes

/-- The fuel-indexed evaluator knot. -/
def interpRun : Nat → Recur
  | 0, req, st => (st, ootOf req)
  | fuel + 1, req, st => interpStep (interpRun fuel) req st

/-- Method `evaluate` with explicit fuel. -/
def evalE (fuel : Nat) (e : Expr) (st : St) : St × EvalRes :=
  recurEval (interpRun fuel) e st

/-- Method `execute` with explicit fuel. -/
def execS (fuel : Nat) (s : Stmt) (st : St) : St × ExecRes :=
  recurExec (interpRun fuel) s st

/-- Port of `VisitBinaryExpr` with explicit fuel (operands evaluated one level
deeper). -/
def visitBinaryExpr : Nat → Expr → Token → Expr → St → St × EvalRes
  | 0, _, _, _, st => (st, .oot)
  | fuel + 1, left, operator, right, st =>
      visitBinaryExprF (interpRun fuel) left operator right st

/-- Port of `VisitPrintStmt` with explicit fuel. -/
def visitPrintStmt : Nat → Expr → St → St × ExecRes
  | 0, _, st => (st, .oot)
  | fuel + 1, e, st => visitPrintStmtF (interpRun fuel) e st

/-- Port of `VisitBlockStmt` with explicit fuel. -/
def visitBlockStmt : Nat → List Stmt → St → St × ExecRes
  | 0, _, st => (st, .oot)
  | fuel + 1, stmts, st => visitBlockStmtF (interpRun fuel) stmts st

/-- Port of `executeBlock` with explicit fuel. -/
def executeBlock : Nat → List Stmt → Nat → St → St × ExecRes
  | 0, _, _, st => (st, .oot)
  | fuel + 1, stmts, envAddr, st => executeBlockF (interpRun fuel) stmts envAddr st


/-- Loop of `Interpret`: execute the top-level statements in order, keeping
the last result; nothing at this level inspects `*ReturnError` results (the
loop carries on past them) and a break panic reaching here is an uncaught
panic that crashes the run. -/
def interpretLoop : Nat → List Stmt → GoRes → St → St × ExecRes
  | 0, _, _, st => (st, .oot)
  | _fuel + 1, [], result, st => (st, .norm result)
  | fuel + 1, s :: rest, _result, st =>
      match execS fuel s st with
      | (st, .norm rv) => interpretLoop fuel rest rv st
      | (st, r) => (st, r)

/-- Port of `NewInterpreter`: a single global environment seeded with the native
clock. -/
def initialState : St :=
  { heap := [{ values := [("clock", .vclock)], enclosing := none }],
    funs := [], env := 0, output := [] }

/-- Entry point `Interpret` with explicit fuel. -/
def Interpret (fuel : Nat) (statements : List Stmt) : St × ExecRes :=
  interpretLoop fuel statements (.val .vnil) initialState

theorem recurEval_literal (fuel : Nat) (v : Value) (st : St) :
    recurEval (interpRun (fuel + 1)) (.literal v) st = (st, .ok v) := rfl

/-- The number branch of `stringify` as a function: fixed-point text with
the all-zero fractional suffix trimmed. -/
def goNumLine (q : Qv) : String :=
  let text := formatF q
  if endsWithDotZeros text then dropLast7 text else text

theorem stringify_vnum (funs : List FunObj) (tok : Option Token) (q : Qv) :
    stringify funs tok (.vnum q) = .ok (goNumLine q) := rfl

/-- Spec-side rendering of a printed number: the sign and the integer part
alone exactly when the value rounded to six decimals has zero fraction,
otherwise the full fixed-point text. -/
def renderNumSpec (q : Qv) : String :=
  if Qv.round6 q % 1000000 = 0 then
    (if q.num < 0 then "-" else "") ++ toString (Qv.round6 q / 1000000)
  else formatF q

theorem round6_neg (q : Qv) : Qv.round6 (Qv.neg q) = Qv.round6 q := by
  simp only [Qv.round6, Qv.neg]
  have h : (if -q.num < 0 then -(-q.num) else -q.num)
      = (if q.num < 0 then -q.num else q.num) := by
    split_ifs <;> omega
  rw [h]

theorem digitChar_eq_zero (d : Nat) (hd : d < 10) :
    (Char.ofNat (48 + d) = '0') ↔ d = 0 := by
  interval_cases d <;> simp

theorem sixFracDigits_data (m : Nat) :
    (sixFracDigits m).data =
      [Char.ofNat (48 + m / 100000 % 10), Char.ofNat (48 + m / 10000 % 10),
       Char.ofNat (48 + m / 1000 % 10), Char.ofNat (48 + m / 100 % 10),
       Char.ofNat (48 + m / 10 % 10), Char.ofNat (48 + m % 10)] := rfl

theorem endsDotZeros_concat (pre : String) (m : Nat) :
    endsWithDotZeros (pre ++ "." ++ sixFracDigits m) =
      decide (m % 1000000 = 0) := by
  have h1 : (pre ++ "." ++ sixFracDigits m).toList =
      pre.data ++ ('.' :: (sixFracDigits m).data) := by
    simp [String.toList]
  unfold endsWithDotZeros
  rw [h1, sixFracDigits_data]
  simp only [List.reverse_append, List.reverse_cons, List.reverse_nil,
    List.nil_append, List.cons_append, List.append_assoc]
  simp only [List.take_succ_cons, List.take_zero]
  rw [decide_eq_decide]
  constructor
  · intro h
    simp only [List.cons.injEq] at h
    obtain ⟨h0, h1b, h2, h3, h4, h5, -⟩ := h
    rw [digitChar_eq_zero _ (Nat.mod_lt _ (by norm_num))] at h0 h1b h2 h3 h4
    rw [digitChar_eq_zero _ (Nat.mod_lt _ (by norm_num))] at h5
    omega
  · intro h
    have e0 : m % 10 = 0 := by omega
    have e1 : m / 10 % 10 = 0 := by omega
    have e2 : m / 100 % 10 = 0 := by omega
    have e3 : m / 1000 % 10 = 0 := by omega
    have e4 : m / 10000 % 10 = 0 := by omega
    have e5 : m / 100000 % 10 = 0 := by omega
    rw [e0, e1, e2, e3, e4, e5]

theorem dropLast7_concat (a : String) (tail7 : List Char)
    (h : tail7.length = 7) : dropLast7 (String.mk (a.data ++ tail7)) = a := by
  simp only [dropLast7, String.toList]
  rw [List.length_append, h, Nat.add_sub_cancel, List.take_left]

theorem dropLast7_dotfrac (pre : String) (m : Nat) :
    dropLast7 (pre ++ "." ++ sixFracDigits m) = pre := by
  have h : (pre ++ "." ++ sixFracDigits m) =
      String.mk (pre.data ++ ('.' :: (sixFracDigits m).data)) := by
    apply String.ext
    simp
  rw [h, dropLast7_concat]
  simp [sixFracDigits_data]

theorem goNumLine_eq_renderNumSpec (q : Qv) : goNumLine q = renderNumSpec q := by
  unfold goNumLine renderNumSpec formatF formatFmag
  by_cases hneg : q.num < 0
  · simp only [if_pos hneg, round6_neg, ← String.append_assoc]
    rw [endsDotZeros_concat]
    by_cases hm : q.round6 % 1000000 = 0
    · simp only [hm, decide_True, if_true]
      rw [dropLast7_dotfrac]
    · simp [hm]
  · simp only [if_neg hneg, ← String.append_assoc]
    rw [endsDotZeros_concat]
    by_cases hm : q.round6 % 1000000 = 0
    · simp only [hm, decide_True, if_true]
      rw [dropLast7_dotfrac]
      exact (String.ext (by simp)).symm
    · simp [hm]

theorem recurBlock_interpRun (fuel : Nat) (stmts : List Stmt) (addr : Nat)
    (st : St) :
    recurBlock (interpRun fuel) stmts addr st = executeBlock fuel stmts addr st := by
  cases fuel with
  | zero => rfl
  | succ f =>
      simp only [recurBlock, interpRun, interpStep, executeBlock]
      rcases executeBlockF (interpRun f) stmts addr st with ⟨a, b⟩
      simp [Prod.map]

/-- C6: with two number operands, division is a runtime error whenever
either operand is zero — so both 5 divided by 0 and 0 divided by 5 fail,
never yielding an IEEE infinity — and otherwise yields the quotient. -/
theorem division_zero_operand_policy (fuel : Nat) (st : St) (op : Token)
    (a b : Qv) (hop : op.tokenType = .SLASH) :
    ((a = 0 ∨ b = 0) →
      visitBinaryExpr (fuel + 2) (.literal (.vnum a)) op (.literal (.vnum b)) st =
        (st, .fatal (.report op.line "Division by 0 is not allowed.")))
    ∧ (a ≠ 0 → b ≠ 0 →
      visitBinaryExpr (fuel + 2) (.literal (.vnum a)) op (.literal (.vnum b)) st =
        (st, .ok (.vnum (Qv.div a b)))) := by
  constructor
  · intro h
    rw [visitBinaryExpr]
    simp [visitBinaryExprF, recurEval_literal, evalBinary, hop, h]
  · intro ha hb
    rw [visitBinaryExpr]
    simp [visitBinaryExprF, recurEval_literal, evalBinary, hop, ha, hb]

/-- Witness for C6: 5 / 0 is the division-by-zero error and 5 / 3 is the
rational quotient. -/
theorem division_zero_operand_policy_witness :
    (visitBinaryExpr 2 (.literal (.vnum 5)) (mkTok .SLASH "/" 1)
        (.literal (.vnum 0)) initialState =
      (initialState, .fatal (.report 1 "Division by 0 is not allowed.")))
    ∧ (visitBinaryExpr 2 (.literal (.vnum 5)) (mkTok .SLASH "/" 1)
        (.literal (.vnum 3)) initialState =
      (initialState, .ok (.vnum (Qv.div 5 3)))) := by
  constructor
  · exact (division_zero_operand_policy 0 initialState (mkTok .SLASH "/" 1)
      5 0 rfl).1 (Or.inr rfl)
  · exact (division_zero_operand_policy 0 initialState (mkTok .SLASH "/" 1)
      5 3 rfl).2 (by decide) (by decide)

/-- True exactly for the operand-type combinations that plus accepts. -/
def plusDefined (l r : Value) : Bool :=
  match l, r with
  | .vnum _, .vnum _ => true
  | .vstr _, .vstr _ => true
  | .vstr _, .vnum _ => true
  | .vnum _, .vstr _ => true
  | _, _ => false

/-- C7: plus adds two numbers, concatenates two strings, concatenates the
default textual rendering on a mixed string/number pair, and is a runtime
type error for every other combination; in particular a followed by 1 gives
a1 and 1 followed by 1 as a string gives 11. -/
theorem plus_overload_semantics (fuel : Nat) (st : St) (op : Token)
    (hop : op.tokenType = .PLUS) :
    (∀ a b : Qv,
      visitBinaryExpr (fuel + 2) (.literal (.vnum a)) op (.literal (.vnum b)) st =
        (st, .ok (.vnum (Qv.add a b))))
    ∧ (∀ s t : String,
      visitBinaryExpr (fuel + 2) (.literal (.vstr s)) op (.literal (.vstr t)) st =
        (st, .ok (.vstr (s ++ t))))
    ∧ (∀ (s : String) (b : Qv),
      visitBinaryExpr (fuel + 2) (.literal (.vstr s)) op (.literal (.vnum b)) st =
        (st, .ok (.vstr (s ++ goV b))))
    ∧ (∀ (a : Qv) (t : String),
      visitBinaryExpr (fuel + 2) (.literal (.vnum a)) op (.literal (.vstr t)) st =
        (st, .ok (.vstr (goV a ++ t))))
    ∧ (∀ l r : Value, plusDefined l r = false →
      visitBinaryExpr (fuel + 2) (.literal l) op (.literal r) st =
        (st, .fatal (.report op.line "Operands must be two numbers or two strings.")))
    ∧ ("a" ++ goV 1 = "a1")
    ∧ (goV 1 ++ "1" = "11")
    ∧ (Qv.add 1 1 = 2) := by
  refine ⟨?_, ?_, ?_, ?_, ?_, rfl, rfl, by decide⟩
  · intro a b
    rw [visitBinaryExpr]; simp [visitBinaryExprF, recurEval_literal, evalBinary, hop]
  · intro s t
    rw [visitBinaryExpr]; simp [visitBinaryExprF, recurEval_literal, evalBinary, hop]
  · intro s b
    rw [visitBinaryExpr]; simp [visitBinaryExprF, recurEval_literal, evalBinary, hop]
  · intro a t
    rw [visitBinaryExpr]; simp [visitBinaryExprF, recurEval_literal, evalBinary, hop]
  · intro l r h
    rw [visitBinaryExpr]; simp only [visitBinaryExprF, recurEval_literal]
    cases l <;> cases r <;> simp_all [evalBinary, hop, plusDefined]

/-- Witness for C7: a plus 1 is the string a1 and booleans do not add. -/
theorem plus_overload_semantics_witness :
    (visitBinaryExpr 2 (.literal (.vstr "a")) (mkTok .PLUS "+" 1)
        (.literal (.vnum 1)) initialState =
      (initialState, .ok (.vstr ("a" ++ goV 1))))
    ∧ (visitBinaryExpr 2 (.literal (.vbool true)) (mkTok .PLUS "+" 1)
        (.literal (.vbool false)) initialState =
      (initialState,
        .fatal (.report 1 "Operands must be two numbers or two strings."))) := by
  have h := plus_overload_semantics 0 initialState (mkTok .PLUS "+" 1) rfl
  exact ⟨h.2.2.1 "a" 1, h.2.2.2.2.1 (.vbool true) (.vbool false) rfl⟩

/-- Dynamic type tag of a runtime value (two values compare cross-type when
their tags differ). -/
def typeTag : Value → Nat
  | .vnil => 0
  | .vbool _ => 1
  | .vnum _ => 2
  | .vstr _ => 3
  | .vclock => 4
  | .vfun _ => 5

/-- C8: equality never errors — both equality operators always yield a
boolean — nil equals only nil, cross-type comparisons are false (so
true == 1 is false), same-type comparisons are value equality (for the
reference values, equality of the references), and bang-equal is the
negation. -/
theorem equality_semantics (fuel : Nat) (st : St) (opE opN : Token)
    (l r : Value) (hE : opE.tokenType = .EQUAL_EQUAL)
    (hN : opN.tokenType = .BANG_EQUAL) :
    (visitBinaryExpr (fuel + 2) (.literal l) opE (.literal r) st =
      (st, .ok (.vbool (isEqual l r))))
    ∧ (visitBinaryExpr (fuel + 2) (.literal l) opN (.literal r) st =
      (st, .ok (.vbool (!isEqual l r))))
    ∧ isEqual .vnil .vnil = true
    ∧ (l ≠ .vnil → isEqual l .vnil = false ∧ isEqual .vnil l = false)
    ∧ (typeTag l ≠ typeTag r → isEqual l r = false)
    ∧ (∀ a b : Qv, isEqual (.vnum a) (.vnum b) = decide (a = b))
    ∧ (∀ a b : String, isEqual (.vstr a) (.vstr b) = decide (a = b))
    ∧ (∀ a b : Bool, isEqual (.vbool a) (.vbool b) = decide (a = b))
    ∧ (∀ i j : Nat, isEqual (.vfun i) (.vfun j) = decide (i = j))
    ∧ isEqual .vclock .vclock = true
    ∧ isEqual (.vbool true) (.vnum 1) = false := by
  refine ⟨?_, ?_, rfl, ?_, ?_, fun a b => rfl, fun a b => rfl, ?_,
    fun i j => rfl, rfl, rfl⟩
  · rw [visitBinaryExpr]; simp [visitBinaryExprF, recurEval_literal, evalBinary, hE]
  · rw [visitBinaryExpr]; simp [visitBinaryExprF, recurEval_literal, evalBinary, hN]
  · intro h
    cases l <;> simp_all [isEqual]
  · intro h
    cases l <;> cases r <;> simp_all [isEqual, typeTag]
  · intro a b
    cases a <;> cases b <;> rfl

/-- Witness for C8: true == 1 evaluates to false and true != 1 to true. -/
theorem equality_semantics_witness :
    (visitBinaryExpr 2 (.literal (.vbool true)) (mkTok .EQUAL_EQUAL "==" 1)
        (.literal (.vnum 1)) initialState =
      (initialState, .ok (.vbool (isEqual (.vbool true) (.vnum 1)))))
    ∧ isEqual (.vbool true) (.vnum 1) = false
    ∧ (visitBinaryExpr 2 (.literal (.vbool true)) (mkTok .BANG_EQUAL "!=" 1)
        (.literal (.vnum 1)) initialState =
      (initialState, .ok (.vbool (!isEqual (.vbool true) (.vnum 1))))) := by
  have h := equality_semantics 0 initialState (mkTok .EQUAL_EQUAL "==" 1)
    (mkTok .BANG_EQUAL "!=" 1) (.vbool true) (.vnum 1) rfl rfl
  exact ⟨h.1, h.2.2.2.2.1 (by decide), h.2.1⟩

theorem executeBlock_env_norm (fuel : Nat) (stmts : List Stmt) (envAddr : Nat)
    (st st2 : St) (r : GoRes)
    (h : executeBlock fuel stmts envAddr st = (st2, .norm r)) : st2.env = st.env := by
  cases fuel with
  | zero => rw [executeBlock] at h; simp at h
  | succ f =>
      rw [executeBlock] at h
      simp only [executeBlockF] at h
      rcases hb : recurBlockLoop (interpRun f) stmts (.val .vnil)
        { st with env := envAddr } with ⟨st3, r3⟩
      rw [hb] at h
      cases r3 <;> simp_all
      obtain ⟨h1, -⟩ := h
      rw [← h1]

theorem executeBlock_env_brk (fuel : Nat) (stmts : List Stmt) (envAddr : Nat)
    (st st2 : St)
    (h : executeBlock fuel stmts envAddr st = (st2, .brk)) : st2.env = st.env := by
  cases fuel with
  | zero => rw [executeBlock] at h; simp at h
  | succ f =>
      rw [executeBlock] at h
      simp only [executeBlockF] at h
      rcases hb : recurBlockLoop (interpRun f) stmts (.val .vnil)
        { st with env := envAddr } with ⟨st3, r3⟩
      rw [hb] at h
      cases r3 <;> simp_all
      rw [← h]

/-- C10: after a block finishes, the interpreter current-environment field
equals the environment current before the block was entered, both when the
statements complete normally (including an early propagating return result)
and when a break panic unwinds through — the deferred restore of
`executeBlock` runs in all those cases, so no child scope leaks. -/
theorem block_restores_current_environment (fuel : Nat) (stmts : List Stmt)
    (envAddr : Nat) (st st2 : St) :
    (∀ r, executeBlock fuel stmts envAddr st = (st2, .norm r) → st2.env = st.env)
    ∧ (executeBlock fuel stmts envAddr st = (st2, .brk) → st2.env = st.env)
    ∧ (∀ r, visitBlockStmt fuel stmts st = (st2, .norm r) → st2.env = st.env)
    ∧ (visitBlockStmt fuel stmts st = (st2, .brk) → st2.env = st.env) := by
  refine ⟨fun r h => executeBlock_env_norm fuel stmts envAddr st st2 r h,
    fun h => executeBlock_env_brk fuel stmts envAddr st st2 h, ?_, ?_⟩
  · intro r h
    cases fuel with
    | zero => rw [visitBlockStmt] at h; simp at h
    | succ f =>
        rw [visitBlockStmt] at h
        simp only [visitBlockStmtF, allocEnv, recurBlock_interpRun] at h
        have := executeBlock_env_norm f stmts st.heap.length
          { st with heap := st.heap ++ [{ values := [], enclosing := some st.env }] }
          st2 r h
        simpa using this
  · intro h
    cases fuel with
    | zero => rw [visitBlockStmt] at h; simp at h
    | succ f =>
        rw [visitBlockStmt] at h
        simp only [visitBlockStmtF, allocEnv, recurBlock_interpRun] at h
        have := executeBlock_env_brk f stmts st.heap.length
          { st with heap := st.heap ++ [{ values := [], enclosing := some st.env }] }
          st2 h
        simpa using this

/-- Witness for C10: executing a one-declaration block from the initial
state leaves the current environment at the global address 0, even though
the block ran in the freshly allocated child cell 1. -/
theorem block_restores_current_environment_witness :
    (St.mk
      [{ values := [("clock", Value.vclock)], enclosing := none },
       { values := [("x", Value.vnum (Qv.mk 1 1))], enclosing := some 0 }]
      [] 0 []).env = initialState.env := by
  exact (block_restores_current_environment 8
    [Stmt.varDecl (mkTok .IDENTIFIER "x" 1) (some (.literal (.vnum 1)))]
    0 initialState _).2.2.1 (.val .vnil) rfl

/-- Program with a return inside a while loop whose condition eventually
turns false: fun f() has var n = 0 and while n less than 2 increments n and
returns n; the program evaluates f(). -/
def returnInLoopProgram : List Stmt :=
  [ .function (mkTok .IDENTIFIER "f" 1) []
      [ .varDecl (mkTok .IDENTIFIER "n" 1) (some (.literal (.vnum 0))),
        .whileS
          (.binary (.variableE (mkTok .IDENTIFIER "n" 1)) (mkTok .LESS "<" 1)
            (.literal (.vnum 2)))
          (.block
            [ .expression (.assign (mkTok .IDENTIFIER "n" 1)
                (.binary (.variableE (mkTok .IDENTIFIER "n" 1))
                  (mkTok .PLUS "+" 1) (.literal (.vnum 1)))),
              .ret (some (.variableE (mkTok .IDENTIFIER "n" 1))) ]) ],
    .expression (.call (.variableE (mkTok .IDENTIFIER "f" 1))
      (mkTok .RIGHT_PAREN ")" 1) []) ]

/-- Program where a break inside a called function reaches a loop in the
caller: fun g() is just break, and while true calls g(). -/
def breakThroughCallProgram : List Stmt :=
  [ .function (mkTok .IDENTIFIER "g" 1) [] [ .breakS ],
    .whileS (.literal (.vbool true))
      (.expression (.call (.variableE (mkTok .IDENTIFIER "g" 1))
        (mkTok .RIGHT_PAREN ")" 1) [])) ]

/-- Control program: a return inside doubly nested blocks (no loop) does
unwind to the function boundary, skipping the remaining statements. -/
def nestedReturnProgram : List Stmt :=
  [ .function (mkTok .IDENTIFIER "h" 1) []
      [ .block [ .block [ .ret (some (.literal (.vnum 7))) ],
                 .print (.literal (.vstr "skipped")) ],
        .print (.literal (.vstr "also skipped")) ],
    .print (.call (.variableE (mkTok .IDENTIFIER "h" 1))
      (mkTok .RIGHT_PAREN ")" 1) []) ]

set_option maxHeartbeats 2000000 in
/-- C1 (code bug): the claim requires a return to unwind out of enclosing
loops and stop at the function boundary, and a break to stop at the nearest
loop without crossing a call boundary.  The while visitor never inspects its
body result for a `*ReturnError`, so in `returnInLoopProgram` the loop keeps
iterating after the first return and the call yields 2 (the value of the
last iteration) instead of 1 — and with a loop condition that stays truthy
it would never terminate.  Dually, the break panic in
`breakThroughCallProgram` unwinds through the `g()` call boundary and
terminates the caller while loop (the program ends normally).  The third
conjunct shows the block-only unwinding the spec tests does work, isolating
the bug to the loop/call boundaries. -/
theorem return_does_not_stop_at_loop_or_call_boundary :
    (Interpret 30 returnInLoopProgram).2 = .norm (.val (.vnum 2))
    ∧ (Interpret 30 returnInLoopProgram).2 ≠ .norm (.val (.vnum 1))
    ∧ (Interpret 30 breakThroughCallProgram).2 = .norm (.val .vnil)
    ∧ (Interpret 40 nestedReturnProgram).1.output = ["7"] := by
  exact ⟨by decide, by decide, by decide, by decide⟩

/-- C5 counterexample: printing the value Nil does not succeed.  A literal
nil reaches `stringify` with a nil token, which dereferences the token — a
nil-pointer panic crashing the run; a nil read through a variable aborts
with the fatal undefined-variable message from `stringify`.  The claim
states printing renders Nil as-is. -/
theorem print_nil_does_not_succeed :
    (visitPrintStmt 2 (.literal .vnil) initialState).2 = .fatal .nilDeref
    ∧ (Interpret 8 [Stmt.varDecl (mkTok .IDENTIFIER "y" 1) none,
        Stmt.print (.variableE (mkTok .IDENTIFIER "y" 1))]).2 =
      .fatal (.report 1 "Variable y is undefined.") := by
  exact ⟨rfl, by decide⟩

/-- C5 (amended): for every value except Nil, print succeeds and writes
exactly one line — a string is rendered as-is; a number is rendered in
six-decimal fixed-point form with the trailing all-zero fractional suffix
trimmed to the signed integer part exactly when the value rounded to six
decimal places has zero fraction (`renderNumSpec`), so the trim tracks the
rounded fixed-point text, not exact fractional-part zero-ness; printing Nil
is a runtime failure (a fatal undefined-variable report through a variable,
a nil-token dereference otherwise). -/
theorem print_rendering (fuel : Nat) (st : St) :
    (∀ s : String, visitPrintStmt (fuel + 2) (.literal (.vstr s)) st =
        ({ st with output := st.output ++ [s] }, .norm (.val .vnil)))
    ∧ (∀ q : Qv, visitPrintStmt (fuel + 2) (.literal (.vnum q)) st =
        ({ st with output := st.output ++ [goNumLine q] }, .norm (.val .vnil)))
    ∧ (∀ q : Qv, goNumLine q = renderNumSpec q)
    ∧ (∀ v : Value, v ≠ .vnil →
        ∃ line, stringify st.funs none v = .ok line ∧
          visitPrintStmt (fuel + 2) (.literal v) st =
            ({ st with output := st.output ++ [line] }, .norm (.val .vnil)))
    ∧ visitPrintStmt (fuel + 2) (.literal .vnil) st = (st, .fatal .nilDeref) := by
  refine ⟨?_, ?_, fun q => goNumLine_eq_renderNumSpec q, ?_, ?_⟩
  · intro s
    rw [visitPrintStmt]
    simp [visitPrintStmtF, recurEval_literal, stringify]
  · intro q
    rw [visitPrintStmt]
    simp [visitPrintStmtF, recurEval_literal, stringify_vnum]
  · intro v hv
    cases v with
    | vnil => exact absurd rfl hv
    | vbool b =>
        refine ⟨_, rfl, ?_⟩
        rw [visitPrintStmt]
        simp [visitPrintStmtF, recurEval_literal, stringify]
    | vnum q =>
        refine ⟨_, stringify_vnum st.funs none q, ?_⟩
        rw [visitPrintStmt]
        simp [visitPrintStmtF, recurEval_literal, stringify_vnum]
    | vstr s =>
        refine ⟨_, rfl, ?_⟩
        rw [visitPrintStmt]
        simp [visitPrintStmtF, recurEval_literal, stringify]
    | vclock =>
        refine ⟨_, rfl, ?_⟩
        rw [visitPrintStmt]
        simp [visitPrintStmtF, recurEval_literal, stringify]
    | vfun addr =>
        refine ⟨_, rfl, ?_⟩
        rw [visitPrintStmt]
        simp [visitPrintStmtF, recurEval_literal, stringify]
  · rw [visitPrintStmt]
    simp [visitPrintStmtF, recurEval_literal, stringify]

/-- Witness for C5: printing the boolean true from the initial state
succeeds with one line. -/
theorem print_rendering_witness :
    ∃ line, stringify initialState.funs none (.vbool true) = .ok line ∧
      visitPrintStmt 2 (.literal (.vbool true)) initialState =
        ({ initialState with
            output := initialState.output ++ [line] }, .norm (.val .vnil)) := by
  exact (print_rendering 0 initialState).2.2.2.1 (.vbool true) (by decide)

end GoLox
